import Mathlib

/-!
A shallow embedding of the `jcarter3/oci` Go repository (a toolkit for OCI
distribution registries) and a verification of its specification claims.

Conventions used throughout:
* Go byte slices are modelled as `List Nat` (`Bytes`).
* Go maps are modelled as association lists with replace-on-insert semantics
  (`lookupA` / `insertA` / `eraseA`).
* Go `error` values are modelled by the inductive `OciError`; `fmt.Errorf`
  with `%w` keeps the wrapped error in the chain (`wrapW`) while `%v`
  flattens it to plain text (`wrapV`), exactly as in Go.
* Fallible Go functions return `Except OciError α`; functions that also
  mutate the registry return the post-state alongside the result
  (`Except OciError α × Registry`), so state left behind by a failed call
  is modelled faithfully.
* Go panics (nil-map writes, nil-function calls) are modelled by the
  `GoResult.panicked` outcome.
* The canonical content hash (sha256 in Go) is abstracted by a concrete
  computable stand-in; the development only uses that a digest is a
  deterministic function of the content, never any property of sha256
  itself.  Likewise the fixed 64/128 hex-digit lengths of real sha256/512
  digests are abstracted away in `validDigest`.
-/

namespace Oci

/-- Go `[]byte`, as a list of byte values. -/
abbrev Bytes := List Nat

/-! ### Association lists standing in for Go maps -/

/-- `m[k]` for a Go map modelled as an association list. -/
def lookupA {α : Type} : List (String × α) → String → Option α
  | [], _ => none
  | (k, v) :: rest, key => if k = key then some v else lookupA rest key

/-- `delete(m, k)` for a Go map. -/
def eraseA {α : Type} : List (String × α) → String → List (String × α)
  | [], _ => []
  | (k, v) :: rest, key =>
    if k = key then eraseA rest key else (k, v) :: eraseA rest key

/-- `m[k] = v` for a Go map: replaces any existing binding for `k`. -/
def insertA {α : Type} (m : List (String × α)) (key : String) (v : α) : List (String × α) :=
  (key, v) :: eraseA m key

/-! ### Digests

Modelled from the spec: a digest is an opaque string `<algorithm>:<encoded>`;
canonical digests (`sha256`) are computed from content, and the available
algorithms are the canonical ones (`sha256`, `sha512`).  The concrete hash
below is a computable stand-in for sha256/sha512: the development relies
only on a digest being a deterministic function of the content. -/

/-- Hex digit for a value (values ≥ 15 all map to `f`; only used below 16). -/
def hexDigit : Nat → Char
  | 0 => '0' | 1 => '1' | 2 => '2' | 3 => '3' | 4 => '4' | 5 => '5' | 6 => '6' | 7 => '7'
  | 8 => '8' | 9 => '9' | 10 => 'a' | 11 => 'b' | 12 => 'c' | 13 => 'd' | 14 => 'e'
  | _ => 'f'

/-- Hex rendering with explicit fuel (all hashes fit in 64 bits, so 16 digits
of fuel more than suffice; we give 64). -/
def natToHexAux : Nat → Nat → List Char
  | 0, _ => []
  | fuel + 1, n => if n = 0 then [] else natToHexAux fuel (n / 16) ++ [hexDigit (n % 16)]

def natToHex (n : Nat) : String :=
  if n = 0 then "0" else String.mk (natToHexAux 64 n)

/-- The stand-in content hash (64-bit polynomial rolling hash). -/
def hashBytes (seed : Nat) (b : Bytes) : Nat :=
  b.foldl (fun acc x => (acc * 131 + x + 1) % (2 ^ 64)) seed

/-- Canonical (`sha256`) digest of blob content. -/
def canonicalDigest (b : Bytes) : String :=
  "sha256:" ++ natToHex (hashBytes 7 b)

/-- The `sha512` stand-in digest. -/
def sha512Digest (b : Bytes) : String :=
  "sha512:" ++ natToHex (hashBytes 11 b)

def isHexChar (c : Char) : Bool :=
  (('0' ≤ c) && (c ≤ '9')) || (('a' ≤ c) && (c ≤ 'f'))

/-- The algorithm component of a digest (everything before the first `:`). -/
def digestAlgorithm (d : String) : String :=
  String.mk (d.data.takeWhile (fun c => c != ':'))

/-- The encoded component of a digest (everything after the first `:`). -/
def digestEncoded (d : String) : String :=
  String.mk ((d.data.dropWhile (fun c => c != ':')).drop 1)

/-- Modelled from the spec (and go-digest's `Digest.Validate`, which is a
dependency, not part of src): the digest must be `<algorithm>:<encoded>` with
an available algorithm and a non-empty lowercase-hex encoded part.  The fixed
digit counts of real sha256/sha512 are abstracted together with the hash. -/
def validDigest (d : String) : Bool :=
  ((digestAlgorithm d == "sha256") || (digestAlgorithm d == "sha512")) &&
    d.data.contains ':' &&
    (!(digestEncoded d == "")) && (digestEncoded d).data.all isHexChar

/-- Digest verification (go-digest `Verifier`): hash the content with the
digest's own algorithm and compare. -/
def digestMatches (d : String) (b : Bytes) : Bool :=
  if digestAlgorithm d = "sha512" then sha512Digest b == d else canonicalDigest b == d

/-! ### Name and tag validation

Modelled from the spec: repository names match
`[a-z0-9]+([._-][a-z0-9]+)*(/[a-z0-9]+([._-][a-z0-9]+)*)*` and tags match
`[A-Za-z0-9_][A-Za-z0-9._-]{0,127}` (the `ociref` package is not in src). -/

def isLowerAlnum (c : Char) : Bool :=
  ('a' ≤ c ∧ c ≤ 'z') ∨ ('0' ≤ c ∧ c ≤ '9')

def isSeparator (c : Char) : Bool :=
  c = '.' ∨ c = '_' ∨ c = '-'

/-- One path component: alternating nonempty lower-alnum runs and single
separators, starting and ending with an alnum run. -/
def validRepoPart : List Char → Bool
  | [] => false
  | cs =>
    let runs := cs.splitOnP isSeparator
    -- every separator-delimited run must be a nonempty lower-alnum run;
    -- `splitOnP` yields an empty run exactly at leading/trailing/双 separators
    runs.all (fun r => !r.isEmpty && r.all isLowerAlnum)

def isValidRepoName (s : String) : Bool :=
  let parts := s.data.splitOnP (fun c => c = '/')
  !parts.isEmpty && parts.all validRepoPart

def isTagStartChar (c : Char) : Bool :=
  c.isAlpha ∨ c.isDigit ∨ c = '_'

def isTagChar (c : Char) : Bool :=
  c.isAlpha ∨ c.isDigit ∨ c = '_' ∨ c = '.' ∨ c = '-'

def isValidTag (s : String) : Bool :=
  match s.data with
  | [] => false
  | c :: rest => isTagStartChar c && rest.length ≤ 127 && rest.all isTagChar

/-! ### The error model

Modelled from the spec (§4.1 of the spec; `ociregistry`'s error code is not
under src, only its tests are): an error is either a coded OCI error (code,
message, optional structured detail), an HTTP-wrapped error binding an
explicit status, a contextual wrap produced by `fmt.Errorf(...%w...)`, or a
plain uncoded Go error (also what `fmt.Errorf` with `%v` produces from any
error). -/

inductive OciError where
  | coded (code : String) (message : String) (detail : Option String)
  | httpWrapped (status : Nat) (inner : OciError)
  | context (pre : String) (inner : OciError) (post : String)
  | plain (message : String)
deriving DecidableEq

/-- Lower-case, space-separated rendering of an error code
(`BLOB_UNKNOWN` ↦ `blob unknown`), used by the Go `Error()` method. -/
def codeWords (code : String) : String :=
  String.mk (code.data.map (fun c => if c = '_' then ' ' else c.toLower))

/-- The Go `Error()` string of an error. -/
def errString : OciError → String
  | .coded c m _ => codeWords c ++ ": " ++ m
  | .httpWrapped s e => toString s ++ ": " ++ errString e
  | .context pre e post => pre ++ errString e ++ post
  | .plain m => m

/-- `fmt.Errorf("pre%wpost", err)`: wraps, keeping the error chain. -/
def wrapW (pre : String) (e : OciError) (post : String) : OciError :=
  .context pre e post

/-- `fmt.Errorf("pre%vpost", err)`: formats the inner error into a plain
string, severing the error chain. -/
def wrapV (pre : String) (e : OciError) (post : String) : OciError :=
  .plain (pre ++ errString e ++ post)

/-- The outermost OCI error code in the chain (`errors.As` to `Error`). -/
def codeOf : OciError → Option String
  | .coded c _ _ => some c
  | .httpWrapped _ e => codeOf e
  | .context _ e _ => codeOf e
  | .plain _ => none

/-- The structured detail of the outermost coded error in the chain. -/
def detailOf : OciError → Option String
  | .coded _ _ d => d
  | .httpWrapped _ e => detailOf e
  | .context _ e _ => detailOf e
  | .plain _ => none

/-- `errors.Is(e, NewError(_, code, nil))`: does the chain carry `code`? -/
def hasCode : OciError → String → Bool
  | .coded c _ _, code => c == code
  | .httpWrapped _ e, code => hasCode e code
  | .context _ e _, code => hasCode e code
  | .plain _, _ => false

/-- Default HTTP status for the known OCI error codes (spec §4.1/§7). -/
def defaultStatus : String → Option Nat
  | "BLOB_UNKNOWN" => some 404
  | "BLOB_UPLOAD_INVALID" => some 400
  | "BLOB_UPLOAD_UNKNOWN" => some 404
  | "DIGEST_INVALID" => some 400
  | "MANIFEST_BLOB_UNKNOWN" => some 404
  | "MANIFEST_INVALID" => some 400
  | "MANIFEST_UNKNOWN" => some 404
  | "NAME_INVALID" => some 400
  | "NAME_UNKNOWN" => some 404
  | "SIZE_INVALID" => some 400
  | "UNAUTHORIZED" => some 401
  | "DENIED" => some 403
  | "UNSUPPORTED" => some 400
  | "TOOMANYREQUESTS" => some 429
  | "RANGE_INVALID" => some 416
  | _ => none

/-- HTTP status an error surfaces with: a known code's default status wins
over an explicit HTTP wrapper; an unknown code uses the wrapper's status;
uncoded errors surface as 500. -/
def httpStatus : OciError → Nat
  | .coded c _ _ => (defaultStatus c).getD 500
  | .httpWrapped s e =>
    match codeOf e with
    | some c => if (defaultStatus c).isSome then httpStatus e else s
    | none => s
  | .context _ e _ => httpStatus e
  | .plain _ => 500

/-- One entry of the JSON wire form
`{"errors":[{"code":...,"message":...,"detail":...}]}`. -/
structure WireError where
  code : String
  message : String
  detail : Option String
deriving DecidableEq

/-- The unmarshalled wire form: a list of wire entries. -/
abbrev WireErrors := List WireError

/-- The message field the marshalled form carries: the inner message for a
bare coded error, the full rendered string otherwise. -/
def marshalMessage : OciError → String
  | .coded _ m _ => m
  | e => errString e

/-- `MarshalError`: the wire-form body and the HTTP status for an error.
The JSON encoding itself is modelled as the identity on the wire structure
(marshal then unmarshal yields the same `WireErrors`). -/
def MarshalError (e : OciError) : WireErrors × Nat :=
  ([{ code := (codeOf e).getD "UNKNOWN", message := marshalMessage e, detail := detailOf e }],
    httpStatus e)

/-- `errors.Is(wireErrors, NewError(_, code, nil))`: an unmarshalled wire
error matches any of its entries by code. -/
def wireHasCode (ws : WireErrors) (code : String) : Bool :=
  ws.any (fun w => w.code == code)

/-- `Except` result carries an error with the given code. -/
def resultHasCode {α : Type} : Except OciError α → String → Bool
  | .error e, c => hasCode e c
  | .ok _, _ => false

/-- The well-known errors used by the code under src (messages per the real
`ociregistry` package; only the codes matter to the claims). -/
def ErrBlobUnknown : OciError :=
  .coded "BLOB_UNKNOWN" "blob unknown to registry" none

def ErrBlobUploadUnknown : OciError :=
  .coded "BLOB_UPLOAD_UNKNOWN" "blob upload unknown to registry" none

def ErrDigestInvalid : OciError :=
  .coded "DIGEST_INVALID" "provided digest did not match uploaded content" none

def ErrDenied : OciError :=
  .coded "DENIED" "requested access to the resource is denied" none

def ErrManifestUnknown : OciError :=
  .coded "MANIFEST_UNKNOWN" "manifest unknown to registry" none

def ErrNameInvalid : OciError :=
  .coded "NAME_INVALID" "invalid repository name" none

def ErrNameUnknown : OciError :=
  .coded "NAME_UNKNOWN" "repository name not known to registry" none

def ErrRangeInvalid : OciError :=
  .coded "RANGE_INVALID" "invalid content range" none

def ErrSizeInvalid : OciError :=
  .coded "SIZE_INVALID" "provided length did not match content length" none

def ErrUnsupported : OciError :=
  .coded "UNSUPPORTED" "the operation is unsupported" none

/-! ### Descriptors and manifests -/

/-- `ociregistry.Descriptor` (`{media_type, digest, size, annotations?,
artifact_type?}` per the spec's data model).  `annotations = none` models a
nil Go map. -/
structure Descriptor where
  mediaType : String
  digest : String
  size : Int
  annotations : Option (List (String × String)) := none
  artifactType : String := ""
deriving DecidableEq

/-- Modelled from the spec: manifest bytes are JSON parsed to a set of
referenced descriptors; we model the parsed form directly (mirroring the
reference fields of `ocibuilder.ManifestOrIndex`, which is under src).  The
raw bytes of a manifest are recovered by `encodeManifest`. -/
structure ManifestData where
  config : Option Descriptor := none
  layers : List Descriptor := []
  manifests : List Descriptor := []
  subject : Option Descriptor := none
deriving DecidableEq

def descString (d : Descriptor) : String :=
  d.mediaType ++ "|" ++ d.digest ++ "|" ++ toString d.size

def optDescString : Option Descriptor → String
  | none => "-"
  | some d => descString d

/-- The byte serialization of a manifest (an injective stand-in for its JSON
bytes; only its determinism is used). -/
def encodeManifest (m : ManifestData) : Bytes :=
  ("M|" ++ optDescString m.config ++ "|" ++ String.join (m.layers.map descString)
      ++ "|" ++ String.join (m.manifests.map descString)
      ++ "|" ++ optDescString m.subject).data.map Char.toNat

/-- Canonical digest of a manifest's bytes (`digest.FromBytes(data)`). -/
def manifestDigest (m : ManifestData) : String :=
  canonicalDigest (encodeManifest m)

/-- The kind of a descriptor referenced from a manifest (spec data model:
`blob`, `manifest` or `subject-manifest`). -/
inductive DescKind where
  | blob
  | manifest
  | subjectManifest
deriving DecidableEq

/-- One reference extracted from a manifest (ocimem's `descInfo`). -/
structure DescRef where
  name : String
  kind : DescKind
  desc : Descriptor
deriving DecidableEq

def imageManifestMediaType : String := "application/vnd.oci.image.manifest.v1+json"

def imageIndexMediaType : String := "application/vnd.oci.image.index.v1+json"

def manifestRefs (m : ManifestData) : List DescRef :=
  (match m.config with
    | some c => [{ name := "config", kind := .blob, desc := c }]
    | none => [])
  ++ m.layers.map (fun d => { name := "layers", kind := .blob, desc := d })
  ++ m.manifests.map (fun d => { name := "manifests", kind := .manifest, desc := d })
  ++ (match m.subject with
    | some s => [{ name := "subject", kind := .subjectManifest, desc := s }]
    | none => [])

/-- Modelled from the spec: `getManifestInfo` parses a manifest of a known
media type and extracts the referenced descriptors by kind (`config` and
`layers` are blobs, `manifests` entries are manifests, `subject` is a
subject-manifest); an unknown manifest media type is an error. -/
def getManifestInfo (mediaType : String) (m : ManifestData) :
    Except OciError (List DescRef) :=
  if mediaType = imageManifestMediaType ∨ mediaType = imageIndexMediaType then
    .ok (manifestRefs m)
  else
    .error (.plain ("unknown manifest media type " ++ mediaType))

/-! ### The in-memory registry state (`ocimem`) -/

/-- A stored blob (`ocimem.blob`). -/
structure Blob where
  mediaType : String
  data : Bytes
deriving DecidableEq

/-- A stored manifest (`ocimem.blob` used in the manifests map, which also
caches the parsed reference info). -/
structure MBlob where
  mediaType : String
  data : ManifestData
  info : List DescRef
deriving DecidableEq

/-- An upload session (`ocimem.Buffer`).  Modelled from the spec: a buffer of
bytes plus the offset the next write must start at; `checkStartOffset` is set
by `PushBlobChunkedResume` (src) and checked by `Write`. -/
structure Buffer where
  id : String
  data : Bytes := []
  checkStartOffset : Int := 0
deriving DecidableEq

/-- `ocimem.repository`. -/
structure Repository where
  blobs : List (String × Blob) := []
  manifests : List (String × MBlob) := []
  tags : List (String × Descriptor) := []
  uploads : List (String × Buffer) := []
deriving DecidableEq

def emptyRepo : Repository := {}

/-- `ocimem.Config` (the fields exercised by src). -/
structure RegistryConfig where
  immutableTags : Bool := false
  laxChildReferences : Bool := false
deriving DecidableEq

/-- `ocimem.Registry`: the full engine state (the upload-ID counter models
the engine's monotonically unique ID source). -/
structure Registry where
  cfg : RegistryConfig := {}
  repos : List (String × Repository) := []
  nextUpload : Nat := 1
deriving DecidableEq

def emptyRegistry : Registry := {}

def Registry.setRepo (r : Registry) (name : String) (repo : Repository) : Registry :=
  { r with repos := insertA r.repos name repo }

/-- Modelled from the spec: `makeRepo` validates the repository name
(failing with `NAME_INVALID` on malformed names) and creates the repository
if absent. -/
def Registry.makeRepo (r : Registry) (name : String) :
    Except OciError Repository × Registry :=
  if isValidRepoName name then
    match lookupA r.repos name with
    | some repo => (.ok repo, r)
    | none => (.ok emptyRepo, r.setRepo name emptyRepo)
  else
    (.error (wrapW "" ErrNameInvalid ""), r)

/-- Modelled from the spec: `CheckDescriptor` verifies a descriptor, and
against content (when given) verifies the canonical digest and the length,
failing with `DIGEST_INVALID` on mismatch (spec §4.3/§8). -/
def CheckDescriptor : Descriptor → Option Bytes → Except OciError Unit
  | desc, some b =>
    if validDigest desc.digest then
      if desc.digest ≠ canonicalDigest b then
        .error (wrapW "digest mismatch: " ErrDigestInvalid "")
      else if desc.size ≠ (b.length : Int) then
        .error (wrapW "size mismatch: " ErrDigestInvalid "")
      else .ok ()
    else .error (wrapW "invalid digest: " ErrDigestInvalid "")
  | desc, none =>
    if validDigest desc.digest then .ok ()
    else .error (wrapW "invalid digest: " ErrDigestInvalid "")

/-- `Registry.PushBlob` (src part_000:513-530).  Note the `%v` wrap of the
`CheckDescriptor` failure (`fmt.Errorf("invalid descriptor: %v", err)`),
which flattens the coded error to plain text. -/
def Registry.pushBlob (r : Registry) (repoName : String) (desc : Descriptor)
    (content : Bytes) : Except OciError Descriptor × Registry :=
  match CheckDescriptor desc (some content) with
  | .error e => (.error (wrapV "invalid descriptor: " e ""), r)
  | .ok _ =>
    match r.makeRepo repoName with
    | (.error e, r1) => (.error e, r1)
    | (.ok repo, r1) =>
      (.ok desc,
        r1.setRepo repoName
          { repo with
            blobs := insertA repo.blobs desc.digest
              { mediaType := desc.mediaType, data := content } })

/-- `Registry.PushBlobChunkedResume` (src part_000:544-564): looks up the
session; if the id is unknown a fresh session is created (under the given id,
or a newly generated one when the id is empty); either way the session's
`checkStartOffset` is set to the requested offset.  Returns the writer's id. -/
def Registry.pushBlobChunkedResume (r : Registry) (repoName id : String)
    (offset : Int) : Except OciError String × Registry :=
  match r.makeRepo repoName with
  | (.error e, r1) => (.error e, r1)
  | (.ok repo, r1) =>
    match lookupA repo.uploads id with
    | some b =>
      (.ok id,
        r1.setRepo repoName
          { repo with uploads := insertA repo.uploads id { b with checkStartOffset := offset } })
    | none =>
      (.ok (if id = "" then toString r1.nextUpload else id),
        { r1.setRepo repoName
            { repo with
              uploads := insertA repo.uploads (if id = "" then toString r1.nextUpload else id)
                { id := if id = "" then toString r1.nextUpload else id,
                  data := [], checkStartOffset := offset } } with
          nextUpload := r1.nextUpload + 1 })

/-- `Registry.PushBlobChunked` (src part_000:533-541) starts a chunked upload
by resuming with an empty id. -/
def Registry.pushBlobChunked (r : Registry) (repoName : String) :
    Except OciError String × Registry :=
  r.pushBlobChunkedResume repoName "" 0

/-- Modelled from the spec: `Buffer.Write` appends to the session buffer,
failing with a range-not-satisfiable (`RANGE_INVALID`) error when the write
does not start at the session's current size. -/
def Registry.writeUpload (r : Registry) (repoName id : String) (chunk : Bytes) :
    Except OciError Unit × Registry :=
  match lookupA r.repos repoName with
  | none => (.error (wrapW "" ErrNameUnknown ""), r)
  | some repo =>
    match lookupA repo.uploads id with
    | none => (.error (wrapW "" ErrBlobUploadUnknown ""), r)
    | some b =>
      if b.checkStartOffset ≠ (b.data.length : Int) then
        (.error (wrapW "invalid offset in resumed upload: " ErrRangeInvalid ""), r)
      else
        let b1 := { b with
          data := b.data ++ chunk,
          checkStartOffset := b.checkStartOffset + (chunk.length : Int) }
        (.ok (), r.setRepo repoName { repo with uploads := insertA repo.uploads id b1 })

/-- Modelled from the spec: `Buffer.Commit` verifies the buffer's canonical
digest against the expected digest (failing with `DIGEST_INVALID` on
mismatch), moves the buffer into the repository's blob map and drops the
session (the commit callback installed in src part_000:553-559). -/
def Registry.commitUpload (r : Registry) (repoName id dig : String) :
    Except OciError Descriptor × Registry :=
  match lookupA r.repos repoName with
  | none => (.error (wrapW "" ErrNameUnknown ""), r)
  | some repo =>
    match lookupA repo.uploads id with
    | none => (.error (wrapW "" ErrBlobUploadUnknown ""), r)
    | some b =>
      if canonicalDigest b.data ≠ dig then
        (.error (wrapW "digest mismatch: " ErrDigestInvalid ""), r)
      else
        (.ok { mediaType := "application/octet-stream", digest := dig,
               size := (b.data.length : Int) },
          r.setRepo repoName
            { repo with
              blobs := insertA repo.blobs dig
                { mediaType := "application/octet-stream", data := b.data },
              uploads := eraseA repo.uploads id })

/-- Modelled from the spec: `Buffer.Cancel` drops the session. -/
def Registry.cancelUpload (r : Registry) (repoName id : String) :
    Except OciError Unit × Registry :=
  match lookupA r.repos repoName with
  | none => (.error (wrapW "" ErrNameUnknown ""), r)
  | some repo =>
    (.ok (), r.setRepo repoName { repo with uploads := eraseA repo.uploads id })

/-- `Registry.MountBlob` (src part_000:567-580): copies a blob reference from
the source repository into the destination repository. -/
def Registry.mountBlob (r : Registry) (fromRepo toRepo dig : String) :
    Except OciError Descriptor × Registry :=
  match r.makeRepo toRepo with
  | (.error e, r1) => (.error e, r1)
  | (.ok rto, r1) =>
    match lookupA r1.repos fromRepo with
    | none => (.error (wrapW "" ErrNameUnknown ""), r1)
    | some rfrom =>
      match lookupA rfrom.blobs dig with
      | none => (.error (wrapW "" ErrBlobUnknown ""), r1)
      | some b =>
        (.ok { mediaType := b.mediaType, digest := dig, size := (b.data.length : Int) },
          r1.setRepo toRepo { rto with blobs := insertA rto.blobs dig b })

/-- Modelled from the spec: `DeleteBlob` removes the entry if present. -/
def Registry.deleteBlob (r : Registry) (repoName dig : String) :
    Except OciError Unit × Registry :=
  match lookupA r.repos repoName with
  | none => (.error (wrapW "" ErrNameUnknown ""), r)
  | some repo =>
    if (lookupA repo.blobs dig).isSome then
      (.ok (), r.setRepo repoName { repo with blobs := eraseA repo.blobs dig })
    else
      (.error (wrapW "" ErrBlobUnknown ""), r)

/-- Modelled from the spec: `DeleteManifest` removes the manifest entry if
present; dangling references are permitted, so tags pointing at the deleted
manifest are left in place. -/
def Registry.deleteManifest (r : Registry) (repoName dig : String) :
    Except OciError Unit × Registry :=
  match lookupA r.repos repoName with
  | none => (.error (wrapW "" ErrNameUnknown ""), r)
  | some repo =>
    if (lookupA repo.manifests dig).isSome then
      (.ok (), r.setRepo repoName { repo with manifests := eraseA repo.manifests dig })
    else
      (.error (wrapW "" ErrManifestUnknown ""), r)

/-- Modelled from the spec: `DeleteTag` removes the tag entry if present. -/
def Registry.deleteTag (r : Registry) (repoName tagName : String) :
    Except OciError Unit × Registry :=
  match lookupA r.repos repoName with
  | none => (.error (wrapW "" ErrNameUnknown ""), r)
  | some repo =>
    if (lookupA repo.tags tagName).isSome then
      (.ok (), r.setRepo repoName { repo with tags := eraseA repo.tags tagName })
    else
      (.error (wrapW "" ErrManifestUnknown ""), r)

/-! ### `Registry.PushManifest` (src part_000:585-699) -/

/-- `ociregistry.PushManifestParameters` (the fields used by src). -/
structure PushManifestParameters where
  digest : String := ""
  tags : List String := []
deriving DecidableEq

/-- `var errCannotOverwriteTag = fmt.Errorf("%w: cannot overwrite tag",
ociregistry.ErrDenied)` (src part_000:582). -/
def errCannotOverwriteTag : OciError :=
  wrapW "" ErrDenied ": cannot overwrite tag"

/-- `fmt.Errorf("%w: mismatched media type", ociregistry.ErrDenied)`
(src part_000:627). -/
def errMismatchedMediaType : OciError :=
  wrapW "" ErrDenied ": mismatched media type"

/-- Digest resolution in `PushManifest` (src part_000:592-608): a caller
supplied digest is validated syntactically and verified against the content;
otherwise the canonical digest is computed. -/
def resolveManifestDigest (params : Option PushManifestParameters)
    (data : ManifestData) : Except OciError String :=
  match params with
  | some p =>
    if p.digest ≠ "" then
      if validDigest p.digest then
        if digestMatches p.digest (encodeManifest data) then .ok p.digest
        else .error (wrapW "digest mismatch: " ErrDigestInvalid "")
      else .error (wrapW "invalid digest: invalid format: " ErrDigestInvalid "")
    else .ok (manifestDigest data)
  | none => .ok (manifestDigest data)

/-- Outcome of the per-tag loop in `PushManifest` (src part_000:618-635). -/
inductive TagCheckResult where
  | proceed
  | shortCircuit (d : Descriptor)
  | failed (e : OciError)
deriving DecidableEq

/-- The per-tag loop of `PushManifest` (src part_000:618-635): each requested
tag is validated; with immutable tags on, a tag already present either denies
the push (different digest, or same digest with mismatched media type) or
short-circuits the whole call with success (identical digest and media
type). -/
def checkTagsLoop (immutable : Bool) (tagsMap : List (String × Descriptor))
    (dig mediaType : String) : List String → TagCheckResult
  | [] => .proceed
  | t :: rest =>
    if isValidTag t then
      if immutable then
        match lookupA tagsMap t with
        | some currDesc =>
          if dig = currDesc.digest then
            if currDesc.mediaType ≠ mediaType then .failed errMismatchedMediaType
            else .shortCircuit currDesc
          else .failed errCannotOverwriteTag
        | none => checkTagsLoop immutable tagsMap dig mediaType rest
      else checkTagsLoop immutable tagsMap dig mediaType rest
    else .failed (.plain "invalid tag")

/-- The descriptor check of `PushManifest` (src part_000:638-650): with a
canonical digest the descriptor is checked against the data (`%v`-wrapping
any failure); with a caller-supplied digest only the media type is checked. -/
def manifestDescCheck (params : Option PushManifestParameters)
    (desc : Descriptor) (data : ManifestData) : Except OciError Unit :=
  if (match params with | none => true | some p => p.digest = "") then
    match CheckDescriptor desc (some (encodeManifest data)) with
    | .error e => .error (wrapV "invalid descriptor: " e "")
    | .ok _ => .ok ()
  else
    if desc.mediaType = "" then
      .error (.plain "invalid descriptor: no media type in descriptor")
    else .ok ()

/-- The reference-existence loop of `checkManifestReferences`
(src part_000:680-697): every referenced descriptor is validated, blob
references must exist in the blob map and manifest references in the
manifest map, while `subject` references may dangle. -/
def checkRefsLoop (repo : Repository) : List DescRef → Except OciError Unit
  | [] => .ok ()
  | ref :: rest =>
    match CheckDescriptor ref.desc none with
    | .error e => .error (wrapV ("bad descriptor in " ++ ref.name ++ ": ") e "")
    | .ok _ =>
      match ref.kind with
      | .blob =>
        if (lookupA repo.blobs ref.desc.digest).isSome then checkRefsLoop repo rest
        else .error (.plain ("blob for " ++ ref.name ++ " not found"))
      | .manifest =>
        if (lookupA repo.manifests ref.desc.digest).isSome then checkRefsLoop repo rest
        else .error (.plain ("manifest for " ++ ref.name ++ " not found"))
      | .subjectManifest => checkRefsLoop repo rest

/-- `Registry.checkManifestReferences` (src part_000:667-699). -/
def Registry.checkManifestReferences (r : Registry) (repoName mediaType : String)
    (data : ManifestData) : Except OciError (List DescRef) :=
  match getManifestInfo mediaType data with
  | .error e => .error e
  | .ok info =>
    if r.cfg.laxChildReferences then .ok info
    else
      match lookupA r.repos repoName with
      | none => .error (wrapW "" ErrNameUnknown "")
      | some repo =>
        match checkRefsLoop repo info with
        | .error e => .error e
        | .ok _ => .ok info

def applyTags (tagsMap : List (String × Descriptor)) (tags : List String)
    (desc : Descriptor) : List (String × Descriptor) :=
  tags.foldl (fun m t => insertA m t desc) tagsMap

/-- `Registry.PushManifest` (src part_000:585-665), stage by stage in the
source's order: make the repository, resolve/verify the digest, run the
per-tag immutable check (which can deny or short-circuit), check the
descriptor, check the references, then store the manifest and apply all
requested tags. -/
def Registry.pushManifest (r : Registry) (repoName : String) (data : ManifestData)
    (mediaType : String) (params : Option PushManifestParameters) :
    Except OciError Descriptor × Registry :=
  match r.makeRepo repoName with
  | (.error e, r1) => (.error e, r1)
  | (.ok repo, r1) =>
    match resolveManifestDigest params data with
    | .error e => (.error e, r1)
    | .ok dig =>
      let desc : Descriptor :=
        { mediaType := mediaType, digest := dig, size := ((encodeManifest data).length : Int) }
      let tags := match params with | some p => p.tags | none => []
      match checkTagsLoop r1.cfg.immutableTags repo.tags dig mediaType tags with
      | .failed e => (.error e, r1)
      | .shortCircuit d => (.ok d, r1)
      | .proceed =>
        match manifestDescCheck params desc data with
        | .error e => (.error e, r1)
        | .ok _ =>
          match r1.checkManifestReferences repoName mediaType data with
          | .error e => (.error (wrapV "invalid manifest: " e ""), r1)
          | .ok info =>
            (.ok desc,
              r1.setRepo repoName
                { repo with
                  manifests := insertA repo.manifests dig
                    { mediaType := mediaType, data := data, info := info },
                  tags := applyTags repo.tags tags desc })

/-! ### Go call outcomes, including panics -/

/-- The outcome of a Go call: a value, an error, or a runtime panic
(nil-map assignment, nil-function call). -/
inductive GoResult (α : Type) where
  | ok (val : α)
  | err (e : OciError)
  | panicked
deriving DecidableEq

/-! ### `ociregistry.Funcs` (src ociregistry/func.go)

Only the fields exercised by the claims are modelled; a method's function
field is `none` when the Go field is nil, and `Funcs` itself is an `Option`
so that `(*ociregistry.Funcs)(nil)` is `none`.  Function payloads are kept
abstract (`Unit → GoResult String`) since only presence/absence and the
dispatch logic matter. -/

structure FuncsData where
  pushBlobChunked_ : Option (Unit → GoResult String) := none
  pushBlobChunkedResume_ : Option (Unit → GoResult String) := none

abbrev Funcs := Option FuncsData

/-- `Funcs.newError` (func.go:66-71) with a nil `NewError` hook. -/
def Funcs.newError (methodName : String) : OciError :=
  wrapW (methodName ++ ": ") ErrUnsupported ""

/-- `Funcs.PushBlobChunked` (func.go:138-143). -/
def Funcs.PushBlobChunked (f : Funcs) : GoResult String :=
  match f with
  | some fd =>
    match fd.pushBlobChunked_ with
    | some g => g ()
    | none => .err (Funcs.newError "PushBlobChunked")
  | none => .err (Funcs.newError "PushBlobChunked")

/-- `Funcs.PushBlobChunkedResume` (func.go:146-151), translated exactly as
written: the guard tests `f.PushBlobChunked_ != nil` but the call dereferences
`f.PushBlobChunkedResume_`, so a nil resume field behind a non-nil chunked
field is a nil-function call, i.e. a panic. -/
def Funcs.PushBlobChunkedResume (f : Funcs) : GoResult String :=
  match f with
  | some fd =>
    if fd.pushBlobChunked_.isSome then
      match fd.pushBlobChunkedResume_ with
      | some g => g ()
      | none => .panicked
    else .err (Funcs.newError "PushBlobChunked")
  | none => .err (Funcs.newError "PushBlobChunked")

/-! ### `ocibuilder` (src ociregistry/ocibuilder) -/

/-- `ocibuilder.ManifestOrIndex` (manifest.go).  `annotations = none` models
the nil map that `New` leaves behind. -/
structure ManifestOrIndex where
  schemaVersion : Int := 0
  mediaType : String := ""
  artifactType : String := ""
  manifests : List Descriptor := []
  config : Option Descriptor := none
  layers : List Descriptor := []
  subject : Option Descriptor := none
  annotations : Option (List (String × String)) := none
deriving DecidableEq

/-- `ocibuilder.ImageBuilder` (the client handle is supplied separately to
the operations that use it). -/
structure ImageBuilder where
  repository : String
  manifest : ManifestOrIndex
deriving DecidableEq

/-- `ocibuilder.New` (imagebuilder.go:20-29): note that `Annotations` is left
nil. -/
def ImageBuilder.New (repository : String) : ImageBuilder :=
  { repository := repository,
    manifest := { schemaVersion := 2, mediaType := imageManifestMediaType } }

/-- `ImageBuilder.AddAnnotation` (imagebuilder.go:99-101): assigns into
`ib.manifest.Annotations` without initialization — a nil-map assignment
panics. -/
def ImageBuilder.AddAnnotationFn (ib : ImageBuilder) (key value : String) :
    GoResult ImageBuilder :=
  match ib.manifest.annotations with
  | none => .panicked
  | some m =>
    .ok { ib with manifest := { ib.manifest with annotations := some (insertA m key value) } }

/-- `ImageBuilder.AddLayer` (imagebuilder.go:47-53). -/
def ImageBuilder.AddLayer (ib : ImageBuilder) (layer : Descriptor) :
    Except OciError ImageBuilder :=
  if ib.manifest.manifests.length > 0 then
    .error (.plain "cannot add layers to an index manifest")
  else
    .ok { ib with manifest := { ib.manifest with layers := ib.manifest.layers ++ [layer] } }

/-- `ImageBuilder.PushLayer` (imagebuilder.go:55-88), run against the
in-memory engine: starts a chunked upload (discarding any error, so a failed
start is a nil-writer dereference, i.e. a panic), writes the content, commits
under its canonical digest, overrides the media type, then assigns the given
annotations into the returned descriptor's `Annotations` map — which the
engine's commit leaves nil, so a non-empty annotations argument panics.
`annotations = none` models a nil argument map (iterating it is a no-op). -/
def ImageBuilder.PushLayer (ib : ImageBuilder) (reg : Registry) (mediaType : String)
    (content : Bytes) (annotations : Option (List (String × String))) :
    GoResult (ImageBuilder × Registry) :=
  match reg.pushBlobChunked ib.repository with
  | (.error _, _) => .panicked
  | (.ok id, r1) =>
    match r1.writeUpload ib.repository id content with
    | (.error _, _) => .err (.plain "writing chunk")
    | (.ok _, r2) =>
      match r2.commitUpload ib.repository id (canonicalDigest content) with
      | (.error e, _) => .err (wrapV "committing chunk: " e "")
      | (.ok desc, r3) =>
        let desc1 := { desc with mediaType := mediaType }
        match annotations with
        | some (kv :: rest) =>
          match desc1.annotations with
          | none => .panicked
          | some m =>
            let desc2 := { desc1 with
              annotations := some ((kv :: rest).foldl (fun acc p => insertA acc p.1 p.2) m) }
            match ib.AddLayer desc2 with
            | .error e => .err e
            | .ok ib1 => .ok (ib1, r3)
        | _ =>
          match ib.AddLayer desc1 with
          | .error e => .err e
          | .ok ib1 => .ok (ib1, r3)

/-! ### `ociclient`'s referrers fallback tag (src ociclient)

`referrersTag` itself is not under src; its behavior is pinned by the test
table `referrersTagTests` (src ociclient, part_001), whose vectors come from
the OCI distribution specification. -/

/-- A character permitted in a tag by the fallback-tag scheme
(`[a-zA-Z0-9._-]`). -/
def referrersTagChar (c : Char) : Bool :=
  (('a' ≤ c) && (c ≤ 'z')) || (('A' ≤ c) && (c ≤ 'Z')) || (('0' ≤ c) && (c ≤ '9')) ||
    (c == '.') || (c == '_') || (c == '-')

def sanitizeTagChar (c : Char) : Char :=
  if referrersTagChar c then c else '-'

/-- The referrers fallback tag as the implementation computes it (modelled to
the behavior pinned by `referrersTagTests`, i.e. the distribution spec's
rule): split the digest at the first `:`, truncate the algorithm to 32
characters and the encoded part to 64, join with `-`, and replace every
character outside `[a-zA-Z0-9._-]` with `-`. -/
def referrersTag (digest : String) : String :=
  let alg := digest.data.takeWhile (fun c => c != ':')
  let enc := (digest.data.dropWhile (fun c => c != ':')).drop 1
  String.mk (((alg.take 32) ++ '-' :: enc.take 64).map sanitizeTagChar)

/-- The fallback tag exactly as the claim (and the spec prose) words it:
the digest with `:` replaced by `-`, the algorithm truncated to 64 characters
with its `+` characters replaced by `-`, and the encoded part truncated to 64
characters. -/
def referrersTagPerClaim (digest : String) : String :=
  let alg := digest.data.takeWhile (fun c => c != ':')
  let enc := (digest.data.dropWhile (fun c => c != ':')).drop 1
  String.mk (((alg.take 64).map (fun c => if c = '+' then '-' else c)) ++ '-' :: enc.take 64)

/-- The test table `referrersTagTests` (src ociclient, part_001:10-25). -/
def referrersTagTests : List (String × String) :=
  [("sha256:aaaaaaaaaaaaaaaaaaaaaaaaaaaaaaaaaaaaaaaaaaaaaaaaaaaaaaaaaaaaaaaa",
    "sha256-aaaaaaaaaaaaaaaaaaaaaaaaaaaaaaaaaaaaaaaaaaaaaaaaaaaaaaaaaaaaaaaa"),
   ("sha512:aaaaaaaaaaaaaaaaaaaaaaaaaaaaaaaaaaaaaaaaaaaaaaaaaaaaaaaaaaaaaaaaaaaaaaaaaaaaaaaaaaaaaaaaaaaaaaaaaaaaaaaaaaaaaaaaaaaaaaaaaaaaaaaa",
    "sha512-aaaaaaaaaaaaaaaaaaaaaaaaaaaaaaaaaaaaaaaaaaaaaaaaaaaaaaaaaaaaaaaa"),
   ("test+algorithm+using+algorithm+separators+and+lots+of+characters+to+excercise+overall+truncation:alsoSome=InTheEncodedSectionToShowHyphenReplacementAndLotsAndLotsOfCharactersToExcerciseEncodedTruncation",
    "test-algorithm-using-algorithm-s-alsoSome-InTheEncodedSectionToShowHyphenReplacementAndLotsAndLot")]

/-! ### `ociauth`'s registry-entry lookup (src part_000, ociauth tests)

`EntryForRegistry` itself is not under src; modelled from the spec (§4.6 key
matching): an exact key match wins; otherwise URL-form keys are compared by
host after stripping scheme and path, and more than one URL-form competitor
is an unambiguous error listing all of them. -/

/-- `ociauth.ConfigEntry` (the fields exercised by the tests). -/
structure ConfigEntry where
  username : String := ""
  password : String := ""
  refreshToken : String := ""
deriving DecidableEq

/-- The failure modes of `EntryForRegistry` modelled by the claims: the
ambiguity error carries the competing keys it lists. -/
inductive AuthLookupError where
  | ambiguous (host : String) (keys : List String)
deriving DecidableEq

/-- The characters after the first `://`, if any. -/
def afterSchemeChars : List Char → Option (List Char)
  | [] => none
  | ':' :: '/' :: '/' :: rest => some rest
  | _ :: rest => afterSchemeChars rest

/-- Strip a URL-form key (`scheme://host/path`) to its host; bare keys are
returned unchanged. -/
def hostOfKey (k : String) : String :=
  let cs :=
    match afterSchemeChars k.data with
    | some rest => rest
    | none => k.data
  String.mk (cs.takeWhile (fun c => c != '/'))

/-- Lexicographic byte-wise comparison of strings. -/
def charListLe : List Char → List Char → Bool
  | [], _ => true
  | _ :: _, [] => false
  | a :: as, b :: bs =>
    if a.toNat < b.toNat then true
    else if b.toNat < a.toNat then false
    else charListLe as bs

def strLe (a b : String) : Bool := charListLe a.data b.data

/-- Insertion sort on strings (for the deterministic competitor list). -/
def insertSorted (s : String) : List String → List String
  | [] => [s]
  | t :: rest => if strLe s t then s :: t :: rest else t :: insertSorted s rest

def sortStrings : List String → List String
  | [] => []
  | s :: rest => insertSorted s (sortStrings rest)

/-- The URL-form keys that resolve to `host` without being `host` itself. -/
def urlCandidates (auths : List (String × ConfigEntry)) (host : String) : List String :=
  (auths.map (fun p => p.1)).filter (fun k => k ≠ host ∧ hostOfKey k = host)

/-- Modelled from the spec: `Config.EntryForRegistry`. -/
def entryForRegistry (auths : List (String × ConfigEntry)) (host : String) :
    Except AuthLookupError ConfigEntry :=
  match lookupA auths host with
  | some e => .ok e
  | none =>
    match urlCandidates auths host with
    | [] => .ok {}
    | [k] => .ok ((lookupA auths k).getD {})
    | ks => .error (.ambiguous host (sortStrings ks))

/-! ### Sequences of interface operations over the engine

Every state-mutating operation of the interface (reads do not change state;
chunked-upload writer calls are included since they mutate sessions). -/

inductive Op where
  | pushBlob (repo : String) (desc : Descriptor) (content : Bytes)
  | pushManifest (repo : String) (data : ManifestData) (mediaType : String)
      (params : Option PushManifestParameters)
  | mountBlob (fromRepo toRepo : String) (dig : String)
  | pushBlobChunkedResume (repo id : String) (offset : Int)
  | writeUpload (repo id : String) (chunk : Bytes)
  | commitUpload (repo id : String) (dig : String)
  | cancelUpload (repo id : String)
  | deleteBlob (repo : String) (dig : String)
  | deleteManifest (repo : String) (dig : String)
  | deleteTag (repo : String) (name : String)
deriving DecidableEq

def Op.isDeleteManifest : Op → Bool
  | .deleteManifest _ _ => true
  | _ => false

/-- One interface operation applied to the engine: the state the operation
leaves behind (failed calls also leave their post-state, as in the model's
operation functions). -/
def step (r : Registry) : Op → Registry
  | .pushBlob repo desc content => (r.pushBlob repo desc content).2
  | .pushManifest repo data mediaType params => (r.pushManifest repo data mediaType params).2
  | .mountBlob fromRepo toRepo dig => (r.mountBlob fromRepo toRepo dig).2
  | .pushBlobChunkedResume repo id offset => (r.pushBlobChunkedResume repo id offset).2
  | .writeUpload repo id chunk => (r.writeUpload repo id chunk).2
  | .commitUpload repo id dig => (r.commitUpload repo id dig).2
  | .cancelUpload repo id => (r.cancelUpload repo id).2
  | .deleteBlob repo dig => (r.deleteBlob repo dig).2
  | .deleteManifest repo dig => (r.deleteManifest repo dig).2
  | .deleteTag repo name => (r.deleteTag repo name).2

def runOps (r : Registry) (ops : List Op) : Registry :=
  ops.foldl step r

/-- The tag integrity invariant: every tag maps to a digest present in the
repository's manifest map. -/
def repoTagsOk (rep : Repository) : Bool :=
  rep.tags.all (fun p => (lookupA rep.manifests p.2.digest).isSome)

def tagsOk (r : Registry) : Bool :=
  r.repos.all (fun p => repoTagsOk p.2)

/-! ### Lookup helpers used to state the claims -/

def isOkE {α : Type} : Except OciError α → Bool
  | .ok _ => true
  | .error _ => false

def blobLookup (r : Registry) (repoName dig : String) : Option Blob :=
  match lookupA r.repos repoName with
  | none => none
  | some rep => lookupA rep.blobs dig

def manifestLookup (r : Registry) (repoName dig : String) : Option MBlob :=
  match lookupA r.repos repoName with
  | none => none
  | some rep => lookupA rep.manifests dig

def tagLookup (r : Registry) (repoName tagName : String) : Option Descriptor :=
  match lookupA r.repos repoName with
  | none => none
  | some rep => lookupA rep.tags tagName

def uploadLookup (r : Registry) (repoName id : String) : Option Buffer :=
  match lookupA r.repos repoName with
  | none => none
  | some rep => lookupA rep.uploads id

/-- The first requested tag that is already present in the tag map (the tag
at which the `PushManifest` loop stops when immutable tags are on). -/
def firstExistingTag (tagsMap : List (String × Descriptor)) :
    List String → Option (String × Descriptor)
  | [] => none
  | t :: rest =>
    match lookupA tagsMap t with
    | some d => some (t, d)
    | none => firstExistingTag tagsMap rest

/-- A registry holding one 3-byte upload session, used to exercise resuming
at a wrong offset. -/
def sessionRegistryC4 : Registry :=
  { repos := [("r",
      { uploads := [("sess", { id := "sess", data := [1, 2, 3], checkStartOffset := 3 })] })] }

/-- Equality of `Except` results is decidable (needed to evaluate the model
on concrete inputs). -/
instance {ε α : Type} [DecidableEq ε] [DecidableEq α] : DecidableEq (Except ε α) :=
  fun a b =>
    match a, b with
    | .ok x, .ok y =>
      if h : x = y then .isTrue (by rw [h]) else .isFalse (by intro hc; cases hc; exact h rfl)
    | .error x, .error y =>
      if h : x = y then .isTrue (by rw [h]) else .isFalse (by intro hc; cases hc; exact h rfl)
    | .ok _, .error _ => .isFalse (by intro hc; cases hc)
    | .error _, .ok _ => .isFalse (by intro hc; cases hc)

/-! Concrete fixtures used by the witnesses and counterexamples. -/

/-- The empty (no references) manifest. -/
def c2Manifest : ManifestData := {}

/-- The descriptor the engine computes for `c2Manifest` pushed with the
image-manifest media type. -/
def c2DescGood : Descriptor :=
  { mediaType := imageManifestMediaType, digest := manifestDigest c2Manifest,
    size := ((encodeManifest c2Manifest).length : Int) }

/-- A descriptor with a different digest. -/
def c2DescOther : Descriptor :=
  { mediaType := imageManifestMediaType, digest := "sha256:deadbeef", size := 0 }

/-- A repository where tag `a` already points at `c2Manifest`'s digest and
tag `b` points at a different digest. -/
def c2Repo : Repository :=
  { manifests := [(manifestDigest c2Manifest,
      { mediaType := imageManifestMediaType, data := c2Manifest, info := [] })],
    tags := [("a", c2DescGood), ("b", c2DescOther)] }

/-- An immutable-tags registry holding `c2Repo`. -/
def c2Registry : Registry :=
  { cfg := { immutableTags := true }, repos := [("r", c2Repo)] }

/-- A blob and a manifest referencing it, for the reference-check witness. -/
def c3Content : Bytes := [1, 2]

def c3Manifest : ManifestData :=
  { config := some
      { mediaType := "application/json",
        digest := canonicalDigest c3Content, size := 2 } }

def c3Repo : Repository :=
  { blobs := [(canonicalDigest c3Content,
      { mediaType := "application/json", data := c3Content })] }

def c3Registry : Registry :=
  { repos := [("r", c3Repo)] }

/-! ## Helper lemmas -/

theorem lookupA_eraseA {α : Type} (m : List (String × α)) (k k' : String) :
    lookupA (eraseA m k) k' = if k' = k then none else lookupA m k' := by
  induction m with
  | nil => simp [eraseA, lookupA]
  | cons p rest ih =>
    obtain ⟨pk, pv⟩ := p
    simp only [eraseA]
    by_cases hpk : pk = k
    · subst hpk
      rw [if_pos rfl, ih]
      by_cases hk' : k' = pk
      · simp [hk']
      · rw [if_neg hk', if_neg hk']
        simp only [lookupA]
        rw [if_neg (fun h : pk = k' => hk' h.symm)]
    · rw [if_neg hpk]
      simp only [lookupA]
      by_cases hk2 : pk = k'
      · subst hk2
        rw [if_pos rfl, if_neg (fun h : pk = k => hpk h), if_pos rfl]
      · rw [if_neg hk2, ih]
        by_cases hk3 : k' = k
        · rw [if_pos hk3, if_pos hk3]
        · rw [if_neg hk3, if_neg hk3, if_neg hk2]

theorem lookupA_insertA_self {α : Type} (m : List (String × α)) (k : String) (v : α) :
    lookupA (insertA m k v) k = some v := by
  simp [insertA, lookupA]

theorem lookupA_insertA_ne {α : Type} (m : List (String × α)) (k k' : String) (v : α)
    (h : k' ≠ k) : lookupA (insertA m k v) k' = lookupA m k' := by
  simp only [insertA, lookupA, if_neg (fun hh : k = k' => h hh.symm)]
  rw [lookupA_eraseA, if_neg h]

theorem hexDigit_isHex (m : Nat) : isHexChar (hexDigit m) = true := by
  unfold hexDigit
  split <;> decide

theorem natToHexAux_all_hex (fuel n : Nat) : (natToHexAux fuel n).all isHexChar = true := by
  induction fuel generalizing n with
  | zero => simp [natToHexAux]
  | succ fuel ih =>
    simp only [natToHexAux]
    by_cases h : n = 0
    · simp [h]
    · rw [if_neg h, List.all_append]
      simp only [Bool.and_eq_true]
      refine ⟨ih (n / 16), ?_⟩
      simp [hexDigit_isHex]

theorem natToHex_all_hex (n : Nat) : (natToHex n).data.all isHexChar = true := by
  unfold natToHex
  by_cases h : n = 0
  · rw [if_pos h]; decide
  · rw [if_neg h]; exact natToHexAux_all_hex 64 n

theorem natToHex_ne_nil (n : Nat) : (natToHex n).data ≠ [] := by
  unfold natToHex
  by_cases h : n = 0
  · rw [if_pos h]; decide
  · rw [if_neg h]
    show natToHexAux 64 n ≠ []
    have : natToHexAux 64 n = natToHexAux 63 (n / 16) ++ [hexDigit (n % 16)] := by
      show natToHexAux (63 + 1) n = _
      rw [natToHexAux, if_neg h]
    rw [this]
    simp

theorem digest_helper_take (l : List Char) :
    List.takeWhile (fun c => c != ':') ("sha256:".data ++ l) = "sha256".data := rfl

theorem digest_helper_drop (l : List Char) :
    List.dropWhile (fun c => c != ':') ("sha256:".data ++ l) = ':' :: l := rfl

theorem canonicalDigest_valid (b : Bytes) : validDigest (canonicalDigest b) = true := by
  have hdata : (canonicalDigest b).data
      = "sha256:".data ++ (natToHex (hashBytes 7 b)).data := rfl
  unfold validDigest
  simp only [Bool.and_eq_true, Bool.or_eq_true, beq_iff_eq]
  refine ⟨⟨⟨?_, ?_⟩, ?_⟩, ?_⟩
  · left
    unfold digestAlgorithm
    rw [hdata, digest_helper_take]
  · rw [hdata]
    show List.contains (['s', 'h', 'a', '2', '5', '6', ':'] ++ _) ':' = true
    simp [List.contains]
  · unfold digestEncoded
    rw [hdata, digest_helper_drop]
    simp only [List.drop_one, List.tail_cons, Bool.not_eq_true']
    simp only [beq_eq_false_iff_ne, ne_eq]
    intro habs
    exact natToHex_ne_nil (hashBytes 7 b) (congrArg String.data habs)
  · unfold digestEncoded
    rw [hdata, digest_helper_drop]
    simp only [List.drop_one, List.tail_cons]
    exact natToHex_all_hex _

theorem canonicalDigest_matches (b : Bytes) :
    digestMatches (canonicalDigest b) b = true := by
  unfold digestMatches
  rw [if_neg]
  · simp
  · show ¬digestAlgorithm (canonicalDigest b) = "sha512"
    have : digestAlgorithm (canonicalDigest b) = "sha256" := by
      unfold digestAlgorithm
      have hdata : (canonicalDigest b).data
          = "sha256:".data ++ (natToHex (hashBytes 7 b)).data := rfl
      rw [hdata, digest_helper_take]
    rw [this]
    decide

theorem codeOf_hasCode (e : OciError) (c : String) (h : codeOf e = some c) :
    hasCode e c = true := by
  induction e with
  | coded c' m d =>
    simp only [codeOf, Option.some.injEq] at h
    simp [hasCode, h]
  | httpWrapped s inner ih =>
    exact ih (by simpa [codeOf] using h)
  | context pre inner post ih =>
    exact ih (by simpa [codeOf] using h)
  | plain m => simp [codeOf] at h

/-! ## Claim C5 -/

/-- C5: `Funcs.PushBlobChunkedResume` with a nil `PushBlobChunkedResume_`
field must return an `UNSUPPORTED` error regardless of whether
`PushBlobChunked_` is set.  The code instead guards on `PushBlobChunked_`
and then calls the nil `PushBlobChunkedResume_` function, which panics:
evaluating the method at a table with `PushBlobChunked_` set and
`PushBlobChunkedResume_` nil yields a panic, contradicting func.go's own
documentation ("When a function is nil, the corresponding method will return
an ErrUnsupported error"). -/
theorem funcs_pushBlobChunkedResume_nil_panics :
    Funcs.PushBlobChunkedResume
        (some { pushBlobChunked_ := some (fun _ => .ok "writer"),
                pushBlobChunkedResume_ := none })
      = .panicked ∧
    Funcs.PushBlobChunkedResume
        (some { pushBlobChunked_ := none, pushBlobChunkedResume_ := none })
      = .err (Funcs.newError "PushBlobChunked") ∧
    Funcs.PushBlobChunkedResume none = .err (Funcs.newError "PushBlobChunked") ∧
    hasCode (Funcs.newError "PushBlobChunked") "UNSUPPORTED" = true :=
  ⟨rfl, rfl, rfl, rfl⟩

/-! ## Claim C6 -/

/-- C6 counterexample: at the third test vector of `referrersTagTests`
(src ociclient, taken from the distribution spec), the tag the claim's
formula produces (algorithm truncated to 64 characters, only `+` replaced)
differs from the tag the implementation is required to produce, because the
algorithm is actually truncated to 32 characters and every character outside
`[a-zA-Z0-9._-]` (such as `=`) is replaced by `-`. -/
theorem referrersTag_claim_cex :
    referrersTagPerClaim (referrersTagTests.getD 2 ("", "")).1
        ≠ (referrersTagTests.getD 2 ("", "")).2 ∧
    referrersTag (referrersTagTests.getD 2 ("", "")).1
        = (referrersTagTests.getD 2 ("", "")).2 := by
  constructor
  · decide
  · decide

theorem takeWhile_until_colon (alg enc : List Char) (h : ':' ∉ alg) :
    (alg ++ ':' :: enc).takeWhile (fun c => c != ':') = alg := by
  induction alg with
  | nil => simp [List.takeWhile]
  | cons a rest ih =>
    have ha : (a != ':') = true := by
      simp only [bne_iff_ne, ne_eq]
      intro he
      exact h (he ▸ List.mem_cons_self a rest)
    simp only [List.cons_append, List.takeWhile_cons, ha, if_pos]
    rw [ih (fun hm => h (List.mem_cons_of_mem a hm))]

theorem dropWhile_until_colon (alg enc : List Char) (h : ':' ∉ alg) :
    (alg ++ ':' :: enc).dropWhile (fun c => c != ':') = ':' :: enc := by
  induction alg with
  | nil => simp [List.dropWhile]
  | cons a rest ih =>
    have ha : (a != ':') = true := by
      simp only [bne_iff_ne, ne_eq]
      intro he
      exact h (he ▸ List.mem_cons_self a rest)
    simp only [List.cons_append, List.dropWhile_cons, ha, if_pos]
    exact ih (fun hm => h (List.mem_cons_of_mem a hm))

/-- C6 amended: the fallback referrers tag is the digest split at the first
`:`, with the algorithm truncated to 32 characters and the encoded part to
64 characters, joined by `-`, and every character outside `[a-zA-Z0-9._-]`
replaced by `-`; this matches all three distribution-spec vectors pinned by
the repository's `referrersTagTests`. -/
theorem referrersTag_spec :
    (∀ alg enc : List Char,
        (':' ∉ alg) →
        referrersTag (String.mk (alg ++ ':' :: enc))
          = String.mk (((alg.take 32) ++ '-' :: enc.take 64).map sanitizeTagChar)) ∧
    (referrersTagTests.all fun t => referrersTag t.1 == t.2) = true := by
  constructor
  · intro alg enc hcolon
    unfold referrersTag
    have hdata : (String.mk (alg ++ ':' :: enc)).data = alg ++ ':' :: enc := rfl
    rw [hdata, takeWhile_until_colon alg enc hcolon, dropWhile_until_colon alg enc hcolon]
    simp
  · decide

/-- C6 witness: the amended formula evaluated at a small digest with a
colon-free algorithm part. -/
theorem referrersTag_spec_witness :
    referrersTag (String.mk ("sha256".data ++ ':' :: "ff".data))
      = String.mk ((("sha256".data.take 32) ++ '-' :: "ff".data.take 64).map sanitizeTagChar) :=
  referrersTag_spec.1 "sha256".data "ff".data (by decide)

/-! ## Claim C7 -/

/-- C7: wrapping a coded error in contextual prose (in either direction)
preserves the has-code query, the structured detail and the HTTP status; the
wrapped error marshals to the wire form carrying the error's code, and the
unmarshalled wire form matches that code. -/
theorem error_wrap_roundTrip (e : OciError) (pre post c : String)
    (h : codeOf e = some c) :
    hasCode (wrapW pre e post) c = true ∧
    detailOf (wrapW pre e post) = detailOf e ∧
    httpStatus (wrapW pre e post) = httpStatus e ∧
    (MarshalError (wrapW pre e post)).1
      = [{ code := c, message := marshalMessage (wrapW pre e post),
           detail := detailOf e }] ∧
    (MarshalError (wrapW pre e post)).2 = httpStatus e ∧
    wireHasCode (MarshalError (wrapW pre e post)).1 c = true := by
  have hcode : codeOf (OciError.context pre e post) = some c := by
    simpa [codeOf] using h
  refine ⟨codeOf_hasCode _ _ hcode, rfl, rfl, ?_, rfl, ?_⟩
  · simp [MarshalError, wrapW, hcode, detailOf]
  · simp [MarshalError, wireHasCode, wrapW, hcode]

/-- C7 witness: the round-trip at `ErrBlobUnknown` wrapped with the test's
"some context: " prose. -/
theorem error_wrap_roundTrip_witness :
    hasCode (wrapW "some context: " ErrBlobUnknown "") "BLOB_UNKNOWN" = true ∧
    detailOf (wrapW "some context: " ErrBlobUnknown "") = detailOf ErrBlobUnknown ∧
    httpStatus (wrapW "some context: " ErrBlobUnknown "") = httpStatus ErrBlobUnknown ∧
    (MarshalError (wrapW "some context: " ErrBlobUnknown "")).1
      = [{ code := "BLOB_UNKNOWN",
           message := marshalMessage (wrapW "some context: " ErrBlobUnknown ""),
           detail := detailOf ErrBlobUnknown }] ∧
    (MarshalError (wrapW "some context: " ErrBlobUnknown "")).2
      = httpStatus ErrBlobUnknown ∧
    wireHasCode (MarshalError (wrapW "some context: " ErrBlobUnknown "")).1
      "BLOB_UNKNOWN" = true :=
  error_wrap_roundTrip ErrBlobUnknown "some context: " "" "BLOB_UNKNOWN" rfl

/-- Sanity: the test table's wire expectations for a wrapped `ErrBlobUnknown`
(error_test.go `WrappedRegistryErrorWithContextAtStart`): code
`BLOB_UNKNOWN`, message `"some context: blob unknown: blob unknown to
registry"`, HTTP status 404, and an explicit 401 wrapper is overridden by the
known code's 404 (`HTTPStatusIgnoredWithKnownCode`) while an unknown code
keeps the wrapper's 401 (`HTTPStatusUsedWithUnknownCode`). -/
theorem marshalError_testVectors :
    MarshalError (wrapW "some context: " ErrBlobUnknown "")
      = ([{ code := "BLOB_UNKNOWN",
            message := "some context: blob unknown: blob unknown to registry",
            detail := none }], 404) ∧
    (MarshalError (.httpWrapped 401 (wrapW "" ErrBlobUnknown ": some context"))).2 = 404 ∧
    (MarshalError (.httpWrapped 401 (.coded "SOME_CODE" "a message with a code" none))).2
      = 401 ∧
    MarshalError (.plain "unknown error")
      = ([{ code := "UNKNOWN", message := "unknown error", detail := none }], 500) := by
  refine ⟨?_, rfl, rfl, rfl⟩
  decide

/-! ## Claim C8 -/

theorem mem_insertSorted (s t : String) (l : List String) :
    t ∈ insertSorted s l ↔ t = s ∨ t ∈ l := by
  induction l with
  | nil => simp [insertSorted]
  | cons x rest ih =>
    simp only [insertSorted]
    split_ifs with h
    · simp [List.mem_cons]
    · simp only [List.mem_cons, ih]
      tauto

theorem mem_sortStrings (t : String) (l : List String) :
    t ∈ sortStrings l ↔ t ∈ l := by
  induction l with
  | nil => simp [sortStrings]
  | cons x rest ih =>
    simp only [sortStrings, mem_insertSorted, List.mem_cons, ih]

/-- C8: an exact host key always wins (even when URL-form keys also resolve
to the host), and with no exact key and more than one URL-form competitor the
lookup fails with an error listing exactly the competing keys. -/
theorem entryForRegistry_spec (auths : List (String × ConfigEntry)) (host : String) :
    (∀ e, lookupA auths host = some e → entryForRegistry auths host = .ok e) ∧
    (∀ k1 k2 ks, lookupA auths host = none →
        urlCandidates auths host = k1 :: k2 :: ks →
        entryForRegistry auths host
          = .error (.ambiguous host (sortStrings (k1 :: k2 :: ks)))) ∧
    (∀ k, k ∈ sortStrings (urlCandidates auths host) ↔
        (k ∈ auths.map (fun p => p.1) ∧ k ≠ host ∧ hostOfKey k = host)) := by
  refine ⟨?_, ?_, ?_⟩
  · intro e he
    simp [entryForRegistry, he]
  · intro k1 k2 ks hnone hcand
    simp [entryForRegistry, hnone, hcand]
  · intro k
    rw [mem_sortStrings]
    unfold urlCandidates
    rw [List.mem_filter]
    simp

/-- C8 witness: the configuration of `TestWithURLEntryAndExplicitHost` (the
exact host key wins) and of `TestWithMultipleURLsAndSameHost` (three URL-form
competitors are listed, sorted). -/
theorem entryForRegistry_spec_witness :
    entryForRegistry
        [("https://someregistry.example.com/v1", { username := "foo", password := "bar" }),
         ("someregistry.example.com", { username := "baz", password := "arble" })]
        "someregistry.example.com"
      = .ok { username := "baz", password := "arble" } ∧
    entryForRegistry
        [("https://someregistry.example.com/v1", { username := "u1", password := "p" }),
         ("http://someregistry.example.com/v1", { username := "u2", password := "p" }),
         ("http://someregistry.example.com/v2", { username := "u3", password := "p" })]
        "someregistry.example.com"
      = .error (.ambiguous "someregistry.example.com"
          ["http://someregistry.example.com/v1",
           "http://someregistry.example.com/v2",
           "https://someregistry.example.com/v1"]) := by
  constructor
  · exact (entryForRegistry_spec
        [("https://someregistry.example.com/v1", { username := "foo", password := "bar" }),
         ("someregistry.example.com", { username := "baz", password := "arble" })]
        "someregistry.example.com").1 _ (by decide)
  · have h := (entryForRegistry_spec
        [("https://someregistry.example.com/v1", { username := "u1", password := "p" }),
         ("http://someregistry.example.com/v1", { username := "u2", password := "p" }),
         ("http://someregistry.example.com/v2", { username := "u3", password := "p" })]
        "someregistry.example.com").2.1
        "https://someregistry.example.com/v1"
        "http://someregistry.example.com/v1"
        ["http://someregistry.example.com/v2"]
        (by decide) (by decide)
    rw [h]
    exact congrArg Except.error
      (congrArg (AuthLookupError.ambiguous "someregistry.example.com") (by decide))

/-! ## Claim C1 -/

/-- C1 counterexample: pushing content `[1,2,3]` under a descriptor whose
digest does not match its canonical digest does fail and does leave the
registry unchanged, but the returned error does **not** carry the
`DIGEST_INVALID` code: `PushBlob` wraps the `CheckDescriptor` failure with
`fmt.Errorf("invalid descriptor: %v", err)` (src part_000:519), and `%v`
flattens the coded error to plain text, severing the error chain that the
has-code query traverses. -/
theorem pushBlob_digestInvalid_cex :
    ("sha256:ff" ≠ canonicalDigest [1, 2, 3]) ∧
    isOkE (emptyRegistry.pushBlob "r"
        { mediaType := "application/json", digest := "sha256:ff", size := 3 } [1, 2, 3]).1
      = false ∧
    resultHasCode (emptyRegistry.pushBlob "r"
        { mediaType := "application/json", digest := "sha256:ff", size := 3 } [1, 2, 3]).1
      "DIGEST_INVALID" = false ∧
    (emptyRegistry.pushBlob "r"
        { mediaType := "application/json", digest := "sha256:ff", size := 3 } [1, 2, 3]).2
      = emptyRegistry := by
  refine ⟨by decide, by decide, by decide, by decide⟩

/-- C1 amended: for a valid repository name, `PushBlob` with matching content
(canonical digest and size both agree) stores the blob under the descriptor's
digest and returns the descriptor; with mismatched content it fails leaving
the state unchanged, but the error it returns is a plain error that does not
carry the `DIGEST_INVALID` code (the `%v` wrap at src part_000:519 severs the
code). -/
theorem pushBlob_spec (r : Registry) (repoName : String) (d : Descriptor) (b : Bytes)
    (hname : isValidRepoName repoName = true) :
    (d.digest = canonicalDigest b → d.size = (b.length : Int) →
        (r.pushBlob repoName d b).1 = .ok d ∧
        blobLookup (r.pushBlob repoName d b).2 repoName d.digest
          = some { mediaType := d.mediaType, data := b }) ∧
    (¬(d.digest = canonicalDigest b ∧ d.size = (b.length : Int)) →
        isOkE (r.pushBlob repoName d b).1 = false ∧
        resultHasCode (r.pushBlob repoName d b).1 "DIGEST_INVALID" = false ∧
        (r.pushBlob repoName d b).2 = r) := by
  constructor
  · intro hdig hsize
    have hcd : CheckDescriptor d (some b) = .ok () := by
      simp only [CheckDescriptor]
      rw [hdig, hsize]
      simp [canonicalDigest_valid b]
    unfold Registry.pushBlob
    rw [hcd]
    unfold Registry.makeRepo
    rw [if_pos hname]
    cases hrep : lookupA r.repos repoName with
    | some repo =>
      refine ⟨rfl, ?_⟩
      unfold blobLookup Registry.setRepo
      simp [lookupA_insertA_self]
    | none =>
      refine ⟨rfl, ?_⟩
      unfold blobLookup Registry.setRepo
      simp [lookupA_insertA_self]
  · intro hmis
    by_cases hv : validDigest d.digest = true
    · by_cases h1 : d.digest = canonicalDigest b
      · have h2 : d.size ≠ (b.length : Int) := fun h2 => hmis ⟨h1, h2⟩
        have hcd : CheckDescriptor d (some b)
            = .error (wrapW "size mismatch: " ErrDigestInvalid "") := by
          simp only [CheckDescriptor]
          rw [if_pos hv, if_neg (not_not_intro h1), if_pos h2]
        unfold Registry.pushBlob
        rw [hcd]
        exact ⟨rfl, rfl, rfl⟩
      · have hcd : CheckDescriptor d (some b)
            = .error (wrapW "digest mismatch: " ErrDigestInvalid "") := by
          simp only [CheckDescriptor]
          rw [if_pos hv, if_pos h1]
        unfold Registry.pushBlob
        rw [hcd]
        exact ⟨rfl, rfl, rfl⟩
    · have hcd : CheckDescriptor d (some b)
          = .error (wrapW "invalid digest: " ErrDigestInvalid "") := by
        simp only [CheckDescriptor]
        rw [if_neg hv]
      unfold Registry.pushBlob
      rw [hcd]
      exact ⟨rfl, rfl, rfl⟩

/-- C1 witness: the amended claim evaluated at a matching push (stored and
returned) and at the counterexample's mismatched push. -/
theorem pushBlob_spec_witness :
    ((emptyRegistry.pushBlob "r"
        { mediaType := "application/json", digest := canonicalDigest [1, 2, 3], size := 3 }
        [1, 2, 3]).1
      = .ok { mediaType := "application/json", digest := canonicalDigest [1, 2, 3], size := 3 } ∧
     blobLookup (emptyRegistry.pushBlob "r"
        { mediaType := "application/json", digest := canonicalDigest [1, 2, 3], size := 3 }
        [1, 2, 3]).2 "r" (canonicalDigest [1, 2, 3])
       = some { mediaType := "application/json", data := [1, 2, 3] }) ∧
    (isOkE (emptyRegistry.pushBlob "r"
        { mediaType := "application/json", digest := "sha256:ff", size := 4 } [1, 2, 3]).1
      = false ∧
     resultHasCode (emptyRegistry.pushBlob "r"
        { mediaType := "application/json", digest := "sha256:ff", size := 4 } [1, 2, 3]).1
       "DIGEST_INVALID" = false ∧
     (emptyRegistry.pushBlob "r"
        { mediaType := "application/json", digest := "sha256:ff", size := 4 } [1, 2, 3]).2
       = emptyRegistry) :=
  ⟨(pushBlob_spec emptyRegistry "r"
      { mediaType := "application/json", digest := canonicalDigest [1, 2, 3], size := 3 }
      [1, 2, 3] (by decide)).1 rfl (by decide),
   (pushBlob_spec emptyRegistry "r"
      { mediaType := "application/json", digest := "sha256:ff", size := 4 }
      [1, 2, 3] (by decide)).2 (by decide)⟩

/-! ## Claim C4 -/

/-- C4: `PushBlobChunkedResume` with an id naming no session succeeds by
creating a fresh session (instead of failing, the documented accommodation
for PATCH-without-POST); and resuming an existing session at an offset
different from its current size yields a writer whose write fails with a
range-not-satisfiable (`RANGE_INVALID`) error, leaving the state unchanged. -/
theorem pushBlobChunkedResume_spec (r : Registry) (repoName id : String) (offset : Int)
    (hname : isValidRepoName repoName = true) :
    (uploadLookup r repoName id = none →
        ∃ bid r1, r.pushBlobChunkedResume repoName id offset = (.ok bid, r1) ∧
          uploadLookup r1 repoName bid
            = some { id := bid, data := [], checkStartOffset := offset }) ∧
    (∀ bf, uploadLookup r repoName id = some bf → offset ≠ (bf.data.length : Int) →
        ∀ chunk, ∃ r1,
          r.pushBlobChunkedResume repoName id offset = (.ok id, r1) ∧
          isOkE (r1.writeUpload repoName id chunk).1 = false ∧
          resultHasCode (r1.writeUpload repoName id chunk).1 "RANGE_INVALID" = true ∧
          (r1.writeUpload repoName id chunk).2 = r1) := by
  constructor
  · intro hnone
    unfold Registry.pushBlobChunkedResume Registry.makeRepo
    rw [if_pos hname]
    cases hrep : lookupA r.repos repoName with
    | none =>
      simp only [emptyRepo, lookupA]
      refine ⟨_, _, rfl, ?_⟩
      unfold uploadLookup Registry.setRepo
      simp [lookupA_insertA_self]
    | some rep =>
      have hups : lookupA rep.uploads id = none := by
        unfold uploadLookup at hnone
        rw [hrep] at hnone
        exact hnone
      simp only [hups]
      refine ⟨_, _, rfl, ?_⟩
      unfold uploadLookup Registry.setRepo
      simp [lookupA_insertA_self]
  · intro bf hsome hoff chunk
    have hrep : ∃ rep, lookupA r.repos repoName = some rep ∧ lookupA rep.uploads id = some bf := by
      unfold uploadLookup at hsome
      cases hrepo : lookupA r.repos repoName with
      | none => rw [hrepo] at hsome; exact absurd hsome (by simp)
      | some rep => rw [hrepo] at hsome; exact ⟨rep, rfl, hsome⟩
    obtain ⟨rep, hrepo, hups⟩ := hrep
    unfold Registry.pushBlobChunkedResume Registry.makeRepo
    rw [if_pos hname, hrepo]
    simp only [hups]
    refine ⟨_, rfl, ?_, ?_, ?_⟩
    · unfold Registry.writeUpload Registry.setRepo
      simp only [lookupA_insertA_self]
      rw [if_pos hoff]
      rfl
    · unfold Registry.writeUpload Registry.setRepo
      simp only [lookupA_insertA_self]
      rw [if_pos hoff]
      rfl
    · unfold Registry.writeUpload Registry.setRepo
      simp only [lookupA_insertA_self]
      rw [if_pos hoff]

/-- C4 witness: a resume at an unknown id creates the session, and a resume
of a 3-byte session at offset 5 yields a writer whose write fails with
`RANGE_INVALID`. -/
theorem pushBlobChunkedResume_spec_witness :
    (∃ bid r1,
        emptyRegistry.pushBlobChunkedResume "r" "unknown-id" 0 = (.ok bid, r1) ∧
        uploadLookup r1 "r" bid = some { id := bid, data := [], checkStartOffset := 0 }) ∧
    (∃ r1,
        sessionRegistryC4.pushBlobChunkedResume "r" "sess" 5 = (.ok "sess", r1) ∧
        isOkE (r1.writeUpload "r" "sess" [9]).1 = false ∧
        resultHasCode (r1.writeUpload "r" "sess" [9]).1 "RANGE_INVALID" = true ∧
        (r1.writeUpload "r" "sess" [9]).2 = r1) :=
  ⟨(pushBlobChunkedResume_spec emptyRegistry "r" "unknown-id" 0 (by decide)).1 (by decide),
   (pushBlobChunkedResume_spec sessionRegistryC4 "r" "sess" 5 (by decide)).2
     { id := "sess", data := [1, 2, 3], checkStartOffset := 3 } (by decide) (by decide) [9]⟩

/-! ## Claim C10 -/

theorem pushChunked_cases (r : Registry) (n : String)
    (hno : uploadLookup r n "" = none) :
    (∃ e, r.pushBlobChunked n = (.error e, r)) ∨
    (∃ bid r1 rep, r.pushBlobChunked n = (.ok bid, r1) ∧
        lookupA r1.repos n = some rep ∧
        lookupA rep.uploads bid
          = some { id := bid, data := [], checkStartOffset := 0 }) := by
  unfold Registry.pushBlobChunked Registry.pushBlobChunkedResume Registry.makeRepo
  by_cases hname : isValidRepoName n = true
  · rw [if_pos hname]
    cases hrep : lookupA r.repos n with
    | none =>
      right
      exact ⟨_, _, _, rfl, lookupA_insertA_self _ _ _, lookupA_insertA_self _ _ _⟩
    | some rep =>
      have hups : lookupA rep.uploads "" = none := by
        unfold uploadLookup at hno
        rw [hrep] at hno
        exact hno
      right
      simp only [hups]
      exact ⟨_, _, _, rfl, lookupA_insertA_self _ _ _, lookupA_insertA_self _ _ _⟩
  · rw [if_neg hname]
    exact .inl ⟨_, rfl⟩

theorem writeUpload_ok (r : Registry) (n id : String) (chunk : Bytes)
    (rep : Repository) (b : Buffer)
    (hrep : lookupA r.repos n = some rep) (hb : lookupA rep.uploads id = some b)
    (hoff : b.checkStartOffset = (b.data.length : Int)) :
    r.writeUpload n id chunk
      = (.ok (),
         r.setRepo n
           { rep with
             uploads := insertA rep.uploads id
               { b with
                 data := b.data ++ chunk,
                 checkStartOffset := b.checkStartOffset + (chunk.length : Int) } }) := by
  unfold Registry.writeUpload
  rw [hrep]
  simp only [hb]
  rw [if_neg (not_not_intro hoff)]

theorem commitUpload_ok (r : Registry) (n id : String) (rep : Repository) (b : Buffer)
    (hrep : lookupA r.repos n = some rep) (hb : lookupA rep.uploads id = some b) :
    r.commitUpload n id (canonicalDigest b.data)
      = (.ok { mediaType := "application/octet-stream",
               digest := canonicalDigest b.data, size := (b.data.length : Int) },
          r.setRepo n
            { rep with
              blobs := insertA rep.blobs (canonicalDigest b.data)
                ({ mediaType := "application/octet-stream", data := b.data }),
              uploads := eraseA rep.uploads id }) := by
  unfold Registry.commitUpload
  rw [hrep]
  simp only [hb]
  rw [if_neg (not_not_intro rfl)]

/-- C10: every `ImageBuilder` returned by `New` has a nil `Annotations` map,
so any `AddAnnotation` call is a nil-map assignment and panics; and
`PushLayer` with a non-empty annotations map panics, because it assigns into
the nil `Annotations` map of the descriptor returned by `Commit` (the
hypothesis rules out a pre-existing session under the empty upload id, which
cannot occur in the engine: generated ids are never empty). -/
theorem imageBuilder_nil_annotations_panics :
    (∀ repo k v, ImageBuilder.AddAnnotationFn (ImageBuilder.New repo) k v = .panicked) ∧
    (∀ ib reg mediaType content kv anns,
        uploadLookup reg ib.repository "" = none →
        ImageBuilder.PushLayer ib reg mediaType content (some (kv :: anns)) = .panicked) := by
  constructor
  · intro repo k v
    rfl
  · intro ib reg mediaType content kv anns hno
    rcases pushChunked_cases reg ib.repository hno with ⟨e, heq⟩ | ⟨bid, r1, rep, heq, hr1, hb⟩
    · simp only [ImageBuilder.PushLayer, heq]
    · have hw := writeUpload_ok r1 ib.repository bid content rep _ hr1 hb (by simp)
      simp only [List.nil_append] at hw
      have hr2 : lookupA (r1.setRepo ib.repository
            { rep with
              uploads := insertA rep.uploads bid
                { id := bid, data := content,
                  checkStartOffset := 0 + (content.length : Int) } }).repos ib.repository
          = some
              { rep with
                uploads := insertA rep.uploads bid
                  { id := bid, data := content,
                    checkStartOffset := 0 + (content.length : Int) } } :=
        lookupA_insertA_self _ _ _
      have hb2 : lookupA (insertA rep.uploads bid
            { id := bid, data := content,
              checkStartOffset := 0 + (content.length : Int) }) bid
          = some
              { id := bid, data := content,
                checkStartOffset := 0 + (content.length : Int) } :=
        lookupA_insertA_self _ _ _
      have hcommit := commitUpload_ok _ ib.repository bid _ _ hr2 hb2
      simp only [ImageBuilder.PushLayer, heq, hw, hcommit]

/-- C10 witness: `AddAnnotation` on a fresh builder panics, and `PushLayer`
against the empty in-memory registry with one annotation panics. -/
theorem imageBuilder_nil_annotations_panics_witness :
    ImageBuilder.AddAnnotationFn (ImageBuilder.New "r") "k" "v" = .panicked ∧
    ImageBuilder.PushLayer (ImageBuilder.New "r") emptyRegistry "mt" [1, 2, 3]
        (some [("k", "v")]) = .panicked :=
  ⟨imageBuilder_nil_annotations_panics.1 "r" "k" "v",
   imageBuilder_nil_annotations_panics.2 (ImageBuilder.New "r") emptyRegistry "mt"
     [1, 2, 3] ("k", "v") [] (by decide)⟩

/-! ## Claim C3 -/

theorem checkRefsLoop_ok_iff (repo : Repository) (l : List DescRef) :
    checkRefsLoop repo l = .ok () ↔
      ∀ ref ∈ l, CheckDescriptor ref.desc none = .ok () ∧
        (ref.kind = .blob → (lookupA repo.blobs ref.desc.digest).isSome = true) ∧
        (ref.kind = .manifest → (lookupA repo.manifests ref.desc.digest).isSome = true) := by
  induction l with
  | nil => simp [checkRefsLoop]
  | cons ref rest ih =>
    simp only [checkRefsLoop, List.forall_mem_cons]
    cases hcd : CheckDescriptor ref.desc none with
    | error e => simp [hcd]
    | ok u =>
      cases u
      cases hk : ref.kind with
      | blob =>
        cases hbl : (lookupA repo.blobs ref.desc.digest).isSome with
        | true => simp [hk, hbl, ih]
        | false => simp [hk, hbl]
      | manifest =>
        cases hml : (lookupA repo.manifests ref.desc.digest).isSome with
        | true => simp [hk, hml, ih]
        | false => simp [hk, hml]
      | subjectManifest => simp [hk, ih]

theorem checkTagsLoop_not_shortCircuit (tagsMap : List (String × Descriptor))
    (dig mediaType : String) (tags : List String) (d : Descriptor) :
    checkTagsLoop false tagsMap dig mediaType tags ≠ .shortCircuit d := by
  induction tags with
  | nil => simp [checkTagsLoop]
  | cons t rest ih =>
    simp only [checkTagsLoop]
    by_cases hv : isValidTag t = true
    · rw [if_pos hv]
      simpa using ih
    · rw [if_neg hv]
      simp

/-- C3: with `lax_child_references` set, `checkManifestReferences` performs
no reference-existence check (a parsed manifest always passes); without it,
the check succeeds exactly when every referenced descriptor is valid, every
blob-kind reference is present in the blob map and every manifest-kind
reference in the manifest map — the `subject` reference is never required to
resolve; consequently (with immutable tags off, which rules out the
tag short-circuit) a successful `PushManifest` implies all blob and manifest
references resolved at push time. -/
theorem checkManifestReferences_spec (r : Registry) (repoName mediaType : String)
    (data : ManifestData) (repo : Repository) (info : List DescRef)
    (hrepo : lookupA r.repos repoName = some repo)
    (hinfo : getManifestInfo mediaType data = .ok info) :
    (r.cfg.laxChildReferences = true →
        r.checkManifestReferences repoName mediaType data = .ok info) ∧
    (r.cfg.laxChildReferences = false →
        (r.checkManifestReferences repoName mediaType data = .ok info ↔
          ∀ ref ∈ info, CheckDescriptor ref.desc none = .ok () ∧
            (ref.kind = .blob → (lookupA repo.blobs ref.desc.digest).isSome = true) ∧
            (ref.kind = .manifest → (lookupA repo.manifests ref.desc.digest).isSome = true))) ∧
    (r.cfg.laxChildReferences = false → r.cfg.immutableTags = false →
        ∀ params d r1, r.pushManifest repoName data mediaType params = (.ok d, r1) →
          ∀ ref ∈ info,
            (ref.kind = .blob → (lookupA repo.blobs ref.desc.digest).isSome = true) ∧
            (ref.kind = .manifest → (lookupA repo.manifests ref.desc.digest).isSome = true)) := by
  refine ⟨?_, ?_, ?_⟩
  · intro hlax
    unfold Registry.checkManifestReferences
    simp only [hinfo, hlax, if_true]
  · intro hlax
    unfold Registry.checkManifestReferences
    simp only [hinfo, hlax, Bool.false_eq_true, if_false, hrepo]
    cases hloop : checkRefsLoop repo info with
    | error e =>
      constructor
      · intro h
        exact Except.noConfusion h
      · intro h
        have h2 := (checkRefsLoop_ok_iff repo info).mpr h
        rw [hloop] at h2
        exact Except.noConfusion h2
    | ok u =>
      cases u
      constructor
      · intro _
        exact (checkRefsLoop_ok_iff repo info).mp hloop
      · intro _
        rfl
  · intro hlax himm params d r1 hpush
    by_cases hname : isValidRepoName repoName = true
    · unfold Registry.pushManifest Registry.makeRepo at hpush
      rw [if_pos hname] at hpush
      simp only [hrepo] at hpush
      cases hdig : resolveManifestDigest params data with
      | error e => simp [hdig] at hpush
      | ok dig =>
        simp only [hdig, himm] at hpush
        generalize (match params with | some p => p.tags | none => [])
            = tags0 at hpush
        cases hloop : checkTagsLoop false repo.tags dig mediaType tags0 with
        | failed e => simp [hloop] at hpush
        | shortCircuit d2 =>
          exact absurd hloop (checkTagsLoop_not_shortCircuit _ _ _ _ _)
        | proceed =>
          simp only [hloop] at hpush
          cases hdc : manifestDescCheck params
              { mediaType := mediaType, digest := dig,
                size := ((encodeManifest data).length : Int) } data with
          | error e => simp [hdc] at hpush
          | ok u =>
            cases u
            simp only [hdc] at hpush
            cases hrefs : r.checkManifestReferences repoName mediaType data with
            | error e => simp [hrefs] at hpush
            | ok info2 =>
              unfold Registry.checkManifestReferences at hrefs
              simp only [hinfo, hlax, Bool.false_eq_true, if_false, hrepo] at hrefs
              cases hloop2 : checkRefsLoop repo info with
              | error e =>
                rw [hloop2] at hrefs
                exact absurd hrefs (by simp)
              | ok u2 =>
                cases u2
                exact fun ref href =>
                  ⟨((checkRefsLoop_ok_iff repo info).mp hloop2 ref href).2.1,
                   ((checkRefsLoop_ok_iff repo info).mp hloop2 ref href).2.2⟩
    · unfold Registry.pushManifest Registry.makeRepo at hpush
      rw [if_neg hname] at hpush
      simp at hpush

/-- C3 witness: in a repository holding the referenced config blob, the
reference check accepts the manifest (via the characterization, whose
right-hand side is evaluated on the concrete repository). -/
theorem checkManifestReferences_spec_witness :
    c3Registry.checkManifestReferences "r" imageManifestMediaType c3Manifest
      = .ok (manifestRefs c3Manifest) :=
  ((checkManifestReferences_spec c3Registry "r" imageManifestMediaType c3Manifest
      c3Repo (manifestRefs c3Manifest) (by decide) (by decide)).2.1 rfl).mpr (by decide)

/-! ## Claim C2 -/

theorem checkTagsLoop_immutable (tagsMap : List (String × Descriptor))
    (dig mediaType : String) (tags : List String)
    (hvalid : ∀ t ∈ tags, isValidTag t = true) :
    checkTagsLoop true tagsMap dig mediaType tags =
      match firstExistingTag tagsMap tags with
      | none => .proceed
      | some (_, d) =>
        if dig = d.digest then
          if d.mediaType ≠ mediaType then .failed errMismatchedMediaType
          else .shortCircuit d
        else .failed errCannotOverwriteTag := by
  induction tags with
  | nil => simp [checkTagsLoop, firstExistingTag]
  | cons t rest ih =>
    have hv := hvalid t (List.mem_cons_self _ _)
    simp only [checkTagsLoop, firstExistingTag, if_pos hv]
    cases hl : lookupA tagsMap t with
    | some d0 => simp
    | none =>
      simp only []
      exact ih (fun t2 h2 => hvalid t2 (List.mem_cons_of_mem _ h2))

theorem lookupA_applyTags (m : List (String × Descriptor)) (tags : List String)
    (desc : Descriptor) (t : String) :
    lookupA (applyTags m tags desc) t = if t ∈ tags then some desc else lookupA m t := by
  induction tags generalizing m with
  | nil => simp [applyTags]
  | cons t0 rest ih =>
    have hfold : applyTags m (t0 :: rest) desc = applyTags (insertA m t0 desc) rest desc := rfl
    rw [hfold, ih (insertA m t0 desc)]
    by_cases hm : t ∈ rest
    · rw [if_pos hm, if_pos (List.mem_cons_of_mem _ hm)]
    · rw [if_neg hm]
      by_cases ht0 : t = t0
      · subst ht0
        rw [if_pos (List.mem_cons_self _ _), lookupA_insertA_self]
      · rw [lookupA_insertA_ne _ _ _ _ ht0]
        rw [if_neg (fun hc => by
          rcases List.mem_cons.mp hc with h | h
          · exact ht0 h
          · exact hm h)]

/-- C2 counterexample: in the immutable-tags registry `c2Registry`, tag `b`
maps to a digest different from the pushed manifest's digest, yet pushing
with requested tags `["a", "b"]` does not fail with `DENIED`: the loop hits
tag `a` first (same digest and media type) and short-circuits success,
returning without storing anything and without applying tag `b`. -/
theorem pushManifest_immutable_cex :
    tagLookup c2Registry "r" "b" = some c2DescOther ∧
    c2DescOther.digest ≠ manifestDigest c2Manifest ∧
    c2Registry.pushManifest "r" c2Manifest imageManifestMediaType
        (some { digest := "", tags := ["a", "b"] })
      = (.ok c2DescGood, c2Registry) := by
  refine ⟨by decide, by decide, by decide⟩

/-- C2 amended: with immutable tags on (and valid inputs: an existing
repository, valid tags), the outcome of `PushManifest` is decided by the
first requested tag that already exists in the repository: it denies the
push (carrying `DENIED`) when that tag maps to a different digest, or to the
same digest with a different media type, leaving the state unchanged; it
short-circuits success, returning the existing descriptor and changing
nothing (hence idempotence of an identical re-push), when digest and media
type both match; only when no requested tag exists does a successful push
store the manifest and apply every requested tag. -/
theorem pushManifest_immutable_spec (r : Registry) (repoName : String)
    (data : ManifestData) (mediaType : String) (tags : List String) (repo : Repository)
    (himm : r.cfg.immutableTags = true)
    (hname : isValidRepoName repoName = true)
    (hrepo : lookupA r.repos repoName = some repo)
    (hvalid : ∀ t ∈ tags, isValidTag t = true) :
    hasCode errCannotOverwriteTag "DENIED" = true ∧
    hasCode errMismatchedMediaType "DENIED" = true ∧
    (∀ t d, firstExistingTag repo.tags tags = some (t, d) →
        d.digest ≠ manifestDigest data →
        r.pushManifest repoName data mediaType (some { digest := "", tags := tags })
          = (.error errCannotOverwriteTag, r)) ∧
    (∀ t d, firstExistingTag repo.tags tags = some (t, d) →
        d.digest = manifestDigest data → d.mediaType ≠ mediaType →
        r.pushManifest repoName data mediaType (some { digest := "", tags := tags })
          = (.error errMismatchedMediaType, r)) ∧
    (∀ t d, firstExistingTag repo.tags tags = some (t, d) →
        d.digest = manifestDigest data → d.mediaType = mediaType →
        r.pushManifest repoName data mediaType (some { digest := "", tags := tags })
          = (.ok d, r)) ∧
    (firstExistingTag repo.tags tags = none →
        ∀ d r1, r.pushManifest repoName data mediaType (some { digest := "", tags := tags })
            = (.ok d, r1) →
          d.digest = manifestDigest data ∧ d.mediaType = mediaType ∧
          (∃ mb, manifestLookup r1 repoName (manifestDigest data) = some mb ∧
            mb.mediaType = mediaType ∧ mb.data = data) ∧
          (∀ t ∈ tags, tagLookup r1 repoName t = some d)) := by
  have hmk : r.makeRepo repoName = (.ok repo, r) := by
    unfold Registry.makeRepo
    rw [if_pos hname, hrepo]
  have hdig : resolveManifestDigest (some { digest := "", tags := tags }) data
      = .ok (manifestDigest data) := by
    unfold resolveManifestDigest
    simp
  have hloopchar := checkTagsLoop_immutable repo.tags (manifestDigest data) mediaType tags hvalid
  refine ⟨rfl, rfl, ?_, ?_, ?_, ?_⟩
  · intro t d hfe hne
    unfold Registry.pushManifest
    simp only [hmk, hdig, himm, hloopchar, hfe]
    rw [if_neg (fun h : manifestDigest data = d.digest => hne h.symm)]
  · intro t d hfe heq hmt
    unfold Registry.pushManifest
    simp only [hmk, hdig, himm, hloopchar, hfe]
    rw [if_pos heq.symm, if_pos hmt]
  · intro t d hfe heq hmt
    unfold Registry.pushManifest
    simp only [hmk, hdig, himm, hloopchar, hfe]
    rw [if_pos heq.symm, if_neg (not_not_intro hmt)]
  · intro hfe d r1 hpush
    unfold Registry.pushManifest at hpush
    simp only [hmk, hdig, himm, hloopchar, hfe] at hpush
    cases hdc : manifestDescCheck (some { digest := "", tags := tags })
        { mediaType := mediaType, digest := manifestDigest data,
          size := ((encodeManifest data).length : Int) } data with
    | error e => simp [hdc] at hpush
    | ok u =>
      cases u
      simp only [hdc] at hpush
      cases hrefs : r.checkManifestReferences repoName mediaType data with
      | error e => simp [hrefs] at hpush
      | ok info2 =>
        simp only [hrefs, Prod.mk.injEq] at hpush
        obtain ⟨hd, hr1⟩ := hpush
        have hdesc : d = Descriptor.mk mediaType (manifestDigest data)
            ((encodeManifest data).length : Int) none "" := by
          cases hd
          rfl
        subst hdesc
        subst hr1
        refine ⟨rfl, rfl, ?_, ?_⟩
        · refine ⟨{ mediaType := mediaType, data := data, info := info2 }, ?_, rfl, rfl⟩
          unfold manifestLookup Registry.setRepo
          simp [lookupA_insertA_self]
        · intro t ht
          unfold tagLookup Registry.setRepo
          simp only [lookupA_insertA_self]
          rw [lookupA_applyTags, if_pos ht]

/-- C2 witness: the amended semantics evaluated on `c2Registry`: an identical
re-push of tag `a` short-circuits success unchanged, and a push requesting
only tag `b` (different digest) is denied. -/
theorem pushManifest_immutable_spec_witness :
    c2Registry.pushManifest "r" c2Manifest imageManifestMediaType
        (some { digest := "", tags := ["a"] })
      = (.ok c2DescGood, c2Registry) ∧
    c2Registry.pushManifest "r" c2Manifest imageManifestMediaType
        (some { digest := "", tags := ["b"] })
      = (.error errCannotOverwriteTag, c2Registry) :=
  ⟨(pushManifest_immutable_spec c2Registry "r" c2Manifest imageManifestMediaType
      ["a"] c2Repo rfl (by decide) (by decide) (by decide)).2.2.2.2.1
      "a" c2DescGood (by decide) (by decide) (by decide),
   (pushManifest_immutable_spec c2Registry "r" c2Manifest imageManifestMediaType
      ["b"] c2Repo rfl (by decide) (by decide) (by decide)).2.2.1
      "b" c2DescOther (by decide) (by decide)⟩

/-! ## Claim C9 -/

theorem mem_eraseA {α : Type} {m : List (String × α)} {k : String}
    {q : String × α} (h : q ∈ eraseA m k) : q ∈ m := by
  induction m with
  | nil => simp [eraseA] at h
  | cons x rest ih =>
    simp only [eraseA] at h
    by_cases hk : x.1 = k
    · rw [if_pos hk] at h
      exact List.mem_cons_of_mem _ (ih h)
    · rw [if_neg hk] at h
      rcases List.mem_cons.mp h with h1 | h2
      · exact h1 ▸ List.mem_cons_self _ _
      · exact List.mem_cons_of_mem _ (ih h2)

theorem all_eraseA {α : Type} (m : List (String × α)) (k : String)
    (p : String × α → Bool) (h : m.all p = true) : (eraseA m k).all p = true := by
  rw [List.all_eq_true] at h ⊢
  exact fun q hq => h q (mem_eraseA hq)

theorem all_lookupA {α : Type} (m : List (String × α)) (p : α → Bool) (k : String) (v : α)
    (hall : m.all (fun q => p q.2) = true) (h : lookupA m k = some v) : p v = true := by
  induction m with
  | nil => simp [lookupA] at h
  | cons x rest ih =>
    simp only [List.all_cons, Bool.and_eq_true] at hall
    simp only [lookupA] at h
    by_cases hk : x.1 = k
    · rw [if_pos hk] at h
      cases h
      exact hall.1
    · rw [if_neg hk] at h
      exact ih hall.2 h

theorem tagsOk_setRepo (r : Registry) (n : String) (rep : Repository)
    (hok : tagsOk r = true) (hrep : repoTagsOk rep = true) :
    tagsOk (r.setRepo n rep) = true := by
  unfold tagsOk Registry.setRepo at *
  simp only [insertA, List.all_cons, Bool.and_eq_true]
  exact ⟨hrep, all_eraseA _ _ _ hok⟩

theorem isSome_lookupA_insertA {α : Type} (m : List (String × α)) (k k' : String) (v : α)
    (h : (lookupA m k).isSome = true) : (lookupA (insertA m k' v) k).isSome = true := by
  by_cases hk : k = k'
  · subst hk
    rw [lookupA_insertA_self]
    rfl
  · rw [lookupA_insertA_ne _ _ _ _ hk]
    exact h

theorem makeRepo_tagsOk (r : Registry) (n : String) (hok : tagsOk r = true) :
    tagsOk (r.makeRepo n).2 = true ∧
      (∀ rep, (r.makeRepo n).1 = .ok rep → repoTagsOk rep = true) := by
  unfold Registry.makeRepo
  by_cases hname : isValidRepoName n = true
  · rw [if_pos hname]
    cases hrep : lookupA r.repos n with
    | some rep =>
      refine ⟨hok, ?_⟩
      intro rep2 h
      cases h
      exact all_lookupA _ _ _ _ hok hrep
    | none =>
      refine ⟨tagsOk_setRepo _ _ _ hok rfl, ?_⟩
      intro rep2 h
      cases h
      rfl
  · rw [if_neg hname]
    exact ⟨hok, fun rep2 h => Except.noConfusion h⟩

theorem mem_applyTags {m : List (String × Descriptor)} {tags : List String}
    {desc : Descriptor} {q : String × Descriptor}
    (h : q ∈ applyTags m tags desc) : q.2 = desc ∨ q ∈ m := by
  induction tags generalizing m with
  | nil => exact .inr h
  | cons t rest ih =>
    have hfold : applyTags m (t :: rest) desc = applyTags (insertA m t desc) rest desc := rfl
    rw [hfold] at h
    rcases ih h with h1 | h2
    · exact .inl h1
    · simp only [insertA, List.mem_cons] at h2
      rcases h2 with h3 | h4
      · exact .inl (by rw [h3])
      · exact .inr (mem_eraseA h4)

theorem step_preserves_tagsOk (r : Registry) (op : Op)
    (hok : tagsOk r = true) (hop : op.isDeleteManifest = false) :
    tagsOk (step r op) = true := by
  cases op with
  | pushBlob repoName desc content =>
    show tagsOk (r.pushBlob repoName desc content).2 = true
    unfold Registry.pushBlob
    cases CheckDescriptor desc (some content) with
    | error e => exact hok
    | ok u =>
      cases u
      have h1 := (makeRepo_tagsOk r repoName hok).1
      have h2 := (makeRepo_tagsOk r repoName hok).2
      cases hmk : r.makeRepo repoName with
      | mk res r1 =>
        rw [hmk] at h1 h2
        cases res with
        | error e => exact h1
        | ok repo => exact tagsOk_setRepo _ _ _ h1 (h2 repo rfl)
  | pushManifest repoName data mediaType params =>
    show tagsOk (r.pushManifest repoName data mediaType params).2 = true
    unfold Registry.pushManifest
    dsimp only
    have h1 := (makeRepo_tagsOk r repoName hok).1
    have h2 := (makeRepo_tagsOk r repoName hok).2
    cases hmk : r.makeRepo repoName with
    | mk res r1 =>
      rw [hmk] at h1 h2
      cases res with
      | error e => exact h1
      | ok repo =>
        try dsimp only
        cases resolveManifestDigest params data with
        | error e => exact h1
        | ok dig =>
          try dsimp only
          split
          · exact h1
          · exact h1
          · split
            · exact h1
            · split
              · exact h1
              · rename_i info hinfo
                apply tagsOk_setRepo _ _ _ h1
                have hrepo := h2 repo rfl
                unfold repoTagsOk at hrepo ⊢
                rw [List.all_eq_true] at hrepo ⊢
                intro q hq
                rcases mem_applyTags hq with hd | hm
                · rw [hd]
                  simp [lookupA_insertA_self]
                · exact isSome_lookupA_insertA _ _ _ _ (hrepo q hm)
  | mountBlob fromRepo toRepo dig =>
    show tagsOk (r.mountBlob fromRepo toRepo dig).2 = true
    unfold Registry.mountBlob
    have h1 := (makeRepo_tagsOk r toRepo hok).1
    have h2 := (makeRepo_tagsOk r toRepo hok).2
    cases hmk : r.makeRepo toRepo with
    | mk res r1 =>
      rw [hmk] at h1 h2
      cases res with
      | error e => exact h1
      | ok rto =>
        try dsimp only
        cases lookupA r1.repos fromRepo with
        | none => exact h1
        | some rfrom =>
          try dsimp only
          cases lookupA rfrom.blobs dig with
          | none => exact h1
          | some b => exact tagsOk_setRepo _ _ _ h1 (h2 rto rfl)
  | pushBlobChunkedResume repoName id offset =>
    show tagsOk (r.pushBlobChunkedResume repoName id offset).2 = true
    unfold Registry.pushBlobChunkedResume
    have h1 := (makeRepo_tagsOk r repoName hok).1
    have h2 := (makeRepo_tagsOk r repoName hok).2
    cases hmk : r.makeRepo repoName with
    | mk res r1 =>
      rw [hmk] at h1 h2
      cases res with
      | error e => exact h1
      | ok repo =>
        try dsimp only
        cases lookupA repo.uploads id with
        | some b => exact tagsOk_setRepo _ _ _ h1 (h2 repo rfl)
        | none => exact tagsOk_setRepo _ _ _ h1 (h2 repo rfl)
  | writeUpload repoName id chunk =>
    show tagsOk (r.writeUpload repoName id chunk).2 = true
    unfold Registry.writeUpload
    cases hrep : lookupA r.repos repoName with
    | none => exact hok
    | some rep =>
      try dsimp only
      cases lookupA rep.uploads id with
      | none => exact hok
      | some b =>
        try dsimp only
        by_cases hoff : b.checkStartOffset = (b.data.length : Int)
        · rw [if_neg (not_not_intro hoff)]
          exact tagsOk_setRepo _ _ _ hok (all_lookupA r.repos repoTagsOk repoName rep hok hrep)
        · rw [if_pos hoff]
          exact hok
  | commitUpload repoName id dig =>
    show tagsOk (r.commitUpload repoName id dig).2 = true
    unfold Registry.commitUpload
    cases hrep : lookupA r.repos repoName with
    | none => exact hok
    | some rep =>
      try dsimp only
      cases lookupA rep.uploads id with
      | none => exact hok
      | some b =>
        try dsimp only
        by_cases hd : canonicalDigest b.data = dig
        · rw [if_neg (not_not_intro hd)]
          exact tagsOk_setRepo _ _ _ hok (all_lookupA r.repos repoTagsOk repoName rep hok hrep)
        · rw [if_pos hd]
          exact hok
  | cancelUpload repoName id =>
    show tagsOk (r.cancelUpload repoName id).2 = true
    unfold Registry.cancelUpload
    cases hrep : lookupA r.repos repoName with
    | none => exact hok
    | some rep => exact tagsOk_setRepo _ _ _ hok (all_lookupA r.repos repoTagsOk repoName rep hok hrep)
  | deleteBlob repoName dig =>
    show tagsOk (r.deleteBlob repoName dig).2 = true
    unfold Registry.deleteBlob
    cases hrep : lookupA r.repos repoName with
    | none => exact hok
    | some rep =>
      try dsimp only
      cases (lookupA rep.blobs dig).isSome with
      | false => exact hok
      | true => exact tagsOk_setRepo _ _ _ hok (all_lookupA r.repos repoTagsOk repoName rep hok hrep)
  | deleteManifest repoName dig =>
    exact Bool.noConfusion hop
  | deleteTag repoName name =>
    show tagsOk (r.deleteTag repoName name).2 = true
    unfold Registry.deleteTag
    cases hrep : lookupA r.repos repoName with
    | none => exact hok
    | some rep =>
      try dsimp only
      cases (lookupA rep.tags name).isSome with
      | false => exact hok
      | true =>
        apply tagsOk_setRepo _ _ _ hok
        have hrepo := all_lookupA r.repos repoTagsOk repoName rep hok hrep
        unfold repoTagsOk at hrepo ⊢
        exact all_eraseA _ _ _ hrepo

theorem runOps_tagsOk (ops : List Op) (r : Registry) (hok : tagsOk r = true)
    (h : ops.all (fun op => !op.isDeleteManifest) = true) :
    tagsOk (runOps r ops) = true := by
  induction ops generalizing r with
  | nil => exact hok
  | cons op rest ih =>
    simp only [List.all_cons, Bool.and_eq_true, Bool.not_eq_true'] at h
    have hstep := step_preserves_tagsOk r op hok h.1
    have hfold : runOps r (op :: rest) = runOps (step r op) rest := rfl
    rw [hfold]
    exact ih (step r op) hstep h.2

/-- C9 counterexample: from the empty registry, pushing a manifest with tag
`t` and then deleting that manifest by digest (`DeleteManifest` removes only
the manifest entry; the spec permits dangling references on delete) reaches
a state in which tag `t` points at an absent manifest — the invariant fails
on a reachable state. -/
theorem tags_dangle_cex :
    Op.isDeleteManifest (.deleteManifest "r" (manifestDigest c2Manifest)) = true ∧
    tagsOk (runOps emptyRegistry
      [.pushManifest "r" c2Manifest imageManifestMediaType
          (some { digest := "", tags := ["t"] }),
       .deleteManifest "r" (manifestDigest c2Manifest)]) = false :=
  ⟨rfl, by decide⟩

/-- C9 amended: in every state reachable from the empty registry by a
sequence of interface operations that contains no `DeleteManifest`, every
tag maps to a digest present in its repository's manifest map; in
particular `PushManifest` stores the manifest and only then applies the
requested tags, so pushes always preserve the invariant, while
`DeleteManifest` may leave dangling tags behind. -/
theorem tags_never_dangle_without_deleteManifest (ops : List Op)
    (h : ops.all (fun op => !op.isDeleteManifest) = true) :
    tagsOk (runOps emptyRegistry ops) = true :=
  runOps_tagsOk ops emptyRegistry rfl h

/-- C9 witness: a tagged manifest push followed by a tag delete keeps the
invariant. -/
theorem tags_never_dangle_witness :
    tagsOk (runOps emptyRegistry
      [.pushManifest "r" c2Manifest imageManifestMediaType
          (some { digest := "", tags := ["t"] }),
       .deleteTag "r" "t"]) = true :=
  tags_never_dangle_without_deleteManifest
    [.pushManifest "r" c2Manifest imageManifestMediaType
        (some { digest := "", tags := ["t"] }),
     .deleteTag "r" "t"] (by decide)

end Oci
